import Mathlib

/-! # Trace memoization and replay: `MemoizableOp<OP>` of `runtime/legion/legion_ops.inl`

A shallow embedding of the methods of `MemoizableOp<OP>`
(`initialize_memoizable`, `execute_dependence_analysis`, `get_trace_local_id`,
`invoke_memoize_operation`, `set_memoize`) as state-passing programs over the
fields of one operation, together with a log of the calls the methods make on
their collaborators (trace, physical trace, template, mapper, base-class hooks).

Conventions of the embedding.
* A C++ pointer is an `Option`: `NULL` is `none`.  An object reached through a
  pointer is stored by value under the pointer, and a mutating call through the
  pointer updates that value in place.
* `#ifdef DEBUG_LEGION` is the boolean `Runtime.DEBUG_LEGION`: the assertions run
  when it is `true` and are compiled out when it is `false`.  An assertion whose
  condition calls a collaborator (lines 56, 69 and 80) makes that call, and the
  call is in the log, in a build where the assertion runs.
* A run never loses its state: it ends either by returning or by a `Fault`,
  and in both cases carries the fields and the call log as they were at that
  point.  Dereferencing `NULL` (undefined behaviour in C++) is the fault
  `null_dereference`.
* The base-class hooks (`OP::execute_dependence_analysis`,
  `OP::resolve_speculation`, `replay_analysis`) and
  `LegionTrace::register_physical_only` are external: a call to one of them is
  recorded in the log, with the values `memo_state` and `tpl` had at the moment
  of the call, and changes none of the fields modelled here.
-/

namespace Legion
namespace Internal

/-- The memoization status of an operation (`memo_state`). -/
inductive MemoState where
  | NO_MEMO
  | MEMO_REQ
  | RECORD
  | REPLAY
deriving DecidableEq, Repr

/-- A physical template as this code sees it: an identity and the answer of
`is_replaying()`. -/
structure PhysicalTemplate where
  id : Nat
  replaying : Bool
deriving DecidableEq, Repr

/-- The call `tpl->is_replaying()`. -/
def PhysicalTemplate.is_replaying (tpl : PhysicalTemplate) : Bool :=
  tpl.replaying

/-- The template store of one trace (`PhysicalTrace`): the current template, if
any, and the identity the next started template will get. -/
structure PhysicalTrace where
  current_template : Option PhysicalTemplate
  next_template_id : Nat
deriving DecidableEq, Repr

/-- The call `physical_trace->get_current_template()`. -/
def PhysicalTrace.get_current_template (pt : PhysicalTrace) : Option PhysicalTemplate :=
  pt.current_template

/-- Modelled from the spec: `PhysicalTrace::start_new_template` is declared in
`legion_trace.h` and defined in `legion_trace.cc`, neither of which is among the
sources.  The spec (section 4.1 step 3, section 6 and the glossary) says the store
starts a new template, that it is returned (`start_new_template(trace) -> Template`,
never absent), that "this becomes current", and that a template being recorded is
one "under construction" as opposed to one "ready to supply cached decisions"
(replaying).  So the started template is not replaying. -/
def PhysicalTrace.start_new_template (pt : PhysicalTrace) : PhysicalTemplate × PhysicalTrace :=
  let t : PhysicalTemplate := { id := pt.next_template_id, replaying := false }
  (t, { current_template := some t, next_template_id := pt.next_template_id + 1 })

/-- Modelled from the spec: the mode of a trace.  `LegionTrace` is declared in
`legion_trace.h`, which is not among the sources.  The spec (section 6) gives the
trace the queries `is_replaying()` and `is_recording()` and the command that marks
it as "producing a recorded state"; a trace that is neither is in the first mode. -/
inductive TracingState where
  | LOGICAL_ONLY
  | PHYSICAL_RECORD
  | PHYSICAL_REPLAY
deriving DecidableEq, Repr

/-- The trace an operation belongs to (`OP::trace` points to one): its mode and
its pointer to the template store. -/
structure LegionTrace where
  state : TracingState
  physical_trace : Option PhysicalTrace
deriving DecidableEq, Repr

/-- The call `OP::trace->get_physical_trace()`. -/
def LegionTrace.get_physical_trace (t : LegionTrace) : Option PhysicalTrace :=
  t.physical_trace

/-- Modelled from the spec: `LegionTrace::is_replaying` (see `TracingState`). -/
def LegionTrace.is_replaying (t : LegionTrace) : Bool :=
  decide (t.state = TracingState.PHYSICAL_REPLAY)

/-- Modelled from the spec: `LegionTrace::is_recording` (see `TracingState`). -/
def LegionTrace.is_recording (t : LegionTrace) : Bool :=
  decide (t.state = TracingState.PHYSICAL_RECORD)

/-- Modelled from the spec: `LegionTrace::set_state_record`, which marks the trace
as "producing a recorded state" (see `TracingState`). -/
def LegionTrace.set_state_record (t : LegionTrace) : LegionTrace :=
  { t with state := TracingState.PHYSICAL_RECORD }

/-- Modelled from the spec: a `DomainPoint`.  The type is declared in a header
that is not among the sources; the spec (section 4.3) calls the default-constructed
value the "no sub-index" position marker.  A point is its list of coordinates, and
the default point has none. -/
structure DomainPoint where
  coords : List Int
deriving DecidableEq, Repr

/-- The default-constructed `DomainPoint()`. -/
def DomainPoint.default : DomainPoint := { coords := [] }

/-- The mapper's input record, `Mapper::MemoizeInput`. -/
structure MemoizeInput where
  traced : Bool
deriving DecidableEq, Repr

/-- The mapper's output record, `Mapper::MemoizeOutput`. -/
structure MemoizeOutput where
  memoize : Bool
deriving DecidableEq, Repr

/-- The mapper (scheduling policy) behind a `MapperManager`: it reads the input and
overwrites, or leaves alone, the output it is handed. -/
structure MapperManager where
  memoize_operation : MemoizeInput → MemoizeOutput → MemoizeOutput

/-- The parts of `Runtime` and of the build this code reads: the build flag
`DEBUG_LEGION`, the two static kill switches, and the mapper table
(`find_mapper`, taken to resolve every processor and mapper identifier: the spec,
section 4.2, leaves a policy that cannot be resolved to the collaborator). -/
structure Runtime where
  DEBUG_LEGION : Bool
  no_tracing : Bool
  no_physical_tracing : Bool
  find_mapper : Nat → Nat → MapperManager

/-- The fields of one `MemoizableOp<OP>`: those inherited from `OP`
(`unique_op_id`, `gen`, `trace`, `trace_local_id`, and the processor
`parent_ctx->get_executing_processor()` answers) and the two it adds (`tpl`,
`memo_state`). -/
structure MemoizableOp where
  unique_op_id : Nat
  gen : Nat
  trace : Option LegionTrace
  trace_local_id : Nat
  executing_processor : Nat
  tpl : Option PhysicalTemplate
  memo_state : MemoState
deriving DecidableEq, Repr

/-- The calls a method makes on its collaborators. -/
inductive Call where
  | get_physical_trace
  | get_current_template
  | set_state_record
  | start_new_template
  | is_replaying (template_id : Nat)
  | register_physical_only (op : Nat) (gen : Nat)
  | resolve_speculation
  | replay_analysis
  | OP_execute_dependence_analysis
  | mapper_memoize_operation (input : MemoizeInput) (output : MemoizeOutput)
  | trace_is_replaying
  | trace_is_recording
deriving DecidableEq, Repr

/-- One entry of the call log: the call, and the values of `memo_state` and `tpl`
at the moment it was made. -/
structure Event where
  call : Call
  memo_state : MemoState
  tpl : Option PhysicalTemplate
deriving DecidableEq, Repr

/-- The error codes this code reports. -/
inductive ErrorCode where
  | ERROR_INVALID_PHYSICAL_TRACING
deriving DecidableEq, Repr

/-- The ways a run ends without returning; an assertion failure and a `NULL`
dereference carry the source line they happen on. -/
inductive Fault where
  | assertion_failed (line : Nat)
  | null_dereference (line : Nat)
  | legion_error (code : ErrorCode)
deriving DecidableEq, Repr

/-- What a run has in hand: the operation's fields and the call log so far. -/
structure Sys where
  op : MemoizableOp
  log : List Event
deriving DecidableEq, Repr

/-- The result of a run: it returned a value, or it stopped with a fault; either
way with the state reached. -/
inductive Res (α : Type) where
  | ret (a : α) (s : Sys)
  | abort (f : Fault) (s : Sys)

/-- A method body: a program over `Sys` that may stop with a fault. -/
def Exec (α : Type) : Type := Sys → Res α

/-- Sequencing: the second program runs only if the first returned. -/
def Exec.bind {α β : Type} (m : Exec α) (f : α → Exec β) : Exec β :=
  fun s =>
    match m s with
    | Res.ret a s1 => f a s1
    | Res.abort e s1 => Res.abort e s1

/-- Returning a value without touching the state. -/
def Exec.pure {α : Type} (a : α) : Exec α :=
  fun s => Res.ret a s

instance : Monad Exec where
  pure := Exec.pure
  bind := Exec.bind

/-- Stop with a fault. -/
def Exec.fail {α : Type} (f : Fault) : Exec α :=
  fun s => Res.abort f s

/-- Read the operation's fields. -/
def getOp : Exec MemoizableOp :=
  fun s => Res.ret s.op s

/-- Update the operation's fields. -/
def modifyOp (f : MemoizableOp → MemoizableOp) : Exec Unit :=
  fun s => Res.ret () { s with op := f s.op }

/-- The state with one more call in its log, stamped with the current values of
`memo_state` and `tpl`. -/
def Sys.logged (s : Sys) (c : Call) : Sys :=
  { s with log := s.log ++ [{ call := c, memo_state := s.op.memo_state, tpl := s.op.tpl }] }

/-- Record a call on a collaborator. -/
def emit (c : Call) : Exec Unit :=
  fun s => Res.ret () (s.logged c)

/-- An `assert` under `#ifdef DEBUG_LEGION`: checked in a debug build, absent
otherwise. -/
def debug_assert (rt : Runtime) (line : Nat) (cond : MemoizableOp → Bool) : Exec Unit :=
  fun s =>
    if rt.DEBUG_LEGION then
      (if cond s.op then Res.ret () s else Res.abort (Fault.assertion_failed line) s)
    else Res.ret () s

/-- An `assert` under `#ifdef DEBUG_LEGION` whose condition is a call on a
collaborator: in a debug build the call is made, so it enters the log, and its
result is checked; otherwise the assertion is absent and no call is made. -/
def debug_assert_calling (rt : Runtime) (line : Nat) (c : Call) (cond : MemoizableOp → Bool) :
    Exec Unit :=
  fun s =>
    if rt.DEBUG_LEGION then
      (if cond s.op then Res.ret () (s.logged c)
       else Res.abort (Fault.assertion_failed line) (s.logged c))
    else Res.ret () s

/-- Modelled from the spec: `REPORT_LEGION_ERROR` is defined in a header that is
not among the sources.  The spec (sections 4.2 and 7) says the method fails with
the configuration error at this point and does not mutate state: the run stops
here with the error code. -/
def REPORT_LEGION_ERROR (code : ErrorCode) : Exec Unit :=
  Exec.fail (Fault.legion_error code)

/-- Dereference `OP::trace` (line 58). -/
def deref_trace : Exec LegionTrace :=
  fun s =>
    match s.op.trace with
    | some t => Res.ret t s
    | none => Res.abort (Fault.null_dereference 58) s

/-- Dereference the pointer `OP::trace->get_physical_trace()` returned (line 59). -/
def deref_physical_trace : Exec PhysicalTrace :=
  fun s =>
    match s.op.trace with
    | some t =>
      (match t.get_physical_trace with
       | some pt => Res.ret pt s
       | none => Res.abort (Fault.null_dereference 59) s)
    | none => Res.abort (Fault.null_dereference 58) s

/-- Dereference the member `tpl` (line 66). -/
def deref_tpl : Exec PhysicalTemplate :=
  fun s =>
    match s.op.tpl with
    | some t => Res.ret t s
    | none => Res.abort (Fault.null_dereference 66) s

/-- Write the object `OP::trace` points to. -/
def store_trace (t : LegionTrace) : Exec Unit :=
  modifyOp (fun op => { op with trace := some t })

/-- The test `OP::trace != NULL`. -/
def has_trace (op : MemoizableOp) : Bool :=
  op.trace.isSome

/-- The test `OP::trace->get_physical_trace() != NULL` (false when there is no trace: in a
debug build the assertion before it has already failed then). -/
def has_physical_trace (op : MemoizableOp) : Bool :=
  match op.trace with
  | some t => t.get_physical_trace.isSome
  | none => false

/-- The test `OP::trace->is_replaying()` of the assertion of line 69. -/
def trace_is_replaying (op : MemoizableOp) : Bool :=
  match op.trace with
  | some t => t.is_replaying
  | none => false

/-- The test `OP::trace->is_recording()` of the assertion of line 80. -/
def trace_is_recording (op : MemoizableOp) : Bool :=
  match op.trace with
  | some t => t.is_recording
  | none => false

/-- Method `MemoizableOp<OP>::initialize_memoizable` (lines 36-42). -/
def initialize_memoizable : Exec Unit := do
  modifyOp (fun op => { op with tpl := none })
  modifyOp (fun op => { op with memo_state := MemoState.NO_MEMO })

/-- Method `MemoizableOp<OP>::set_memoize` (lines 115-125). -/
def set_memoize (rt : Runtime) (memoize : Bool) : Exec Unit := do
  debug_assert rt 121 (fun op => decide (op.memo_state = MemoState.NO_MEMO))
  if memoize && !rt.no_tracing && !rt.no_physical_tracing then
    modifyOp (fun op => { op with memo_state := MemoState.MEMO_REQ })
  else
    pure ()

/-- Method `MemoizableOp<OP>::invoke_memoize_operation` (lines 96-113).  The two lookups
(`get_executing_processor`, `find_mapper`) are reads; the call on the mapper is
logged with the input and the preset output it is handed. -/
def invoke_memoize_operation (rt : Runtime) (mapper_id : Nat) : Exec Unit := do
  let op ← getOp
  let input : MemoizeInput := { traced := has_trace op }
  let output : MemoizeOutput := { memoize := false }
  let mapper_proc := op.executing_processor
  let mapper := rt.find_mapper mapper_proc mapper_id
  emit (Call.mapper_memoize_operation input output)
  let output := mapper.memoize_operation input output
  if !has_trace op && output.memoize then
    REPORT_LEGION_ERROR ErrorCode.ERROR_INVALID_PHYSICAL_TRACING
  else
    pure ()
  set_memoize rt output.memoize

/-- Method `MemoizableOp<OP>::get_trace_local_id` (lines 88-94), declared `const`. -/
def get_trace_local_id : Exec (Nat × DomainPoint) := do
  let op ← getOp
  pure (op.trace_local_id, DomainPoint.default)

/-- Method `MemoizableOp<OP>::execute_dependence_analysis` (lines 45-86), for a
store whose `start_new_template` (line 63, defined outside the sources) is the given
function: it returns the started template and the store after the call.  The
`return` of line 75 ends the replay branch; every other path reaches line 85. -/
def execute_dependence_analysis_with
    (start_new_template : PhysicalTrace → PhysicalTemplate × PhysicalTrace) (rt : Runtime) :
    Exec Unit := do
  debug_assert rt 50 (fun op =>
    decide (op.memo_state = MemoState.NO_MEMO) || decide (op.memo_state = MemoState.MEMO_REQ))
  let op ← getOp
  if op.memo_state = MemoState.MEMO_REQ then
    debug_assert rt 55 has_trace
    debug_assert_calling rt 56 Call.get_physical_trace has_physical_trace
    let trace ← deref_trace
    emit Call.get_physical_trace
    let physical_trace ← deref_physical_trace
    emit Call.get_current_template
    modifyOp (fun op => { op with tpl := physical_trace.get_current_template })
    let fetched ← getOp
    if fetched.tpl.isNone then
      emit Call.set_state_record
      store_trace trace.set_state_record
      emit Call.start_new_template
      let started := start_new_template physical_trace
      store_trace { trace.set_state_record with physical_trace := some started.2 }
      modifyOp (fun op => { op with tpl := some started.1 })
    else
      pure ()
    let tpl ← deref_tpl
    emit (Call.is_replaying tpl.id)
    if tpl.is_replaying then
      debug_assert_calling rt 69 Call.trace_is_replaying trace_is_replaying
      modifyOp (fun op => { op with memo_state := MemoState.REPLAY })
      emit (Call.register_physical_only op.unique_op_id op.gen)
      emit Call.resolve_speculation
      emit Call.replay_analysis
    else
      debug_assert_calling rt 80 Call.trace_is_recording trace_is_recording
      modifyOp (fun op => { op with memo_state := MemoState.RECORD })
      emit Call.OP_execute_dependence_analysis
  else
    emit Call.OP_execute_dependence_analysis

/-- Method `MemoizableOp<OP>::execute_dependence_analysis` (lines 45-86) with the
store the spec describes, whose started template is being recorded. -/
def execute_dependence_analysis (rt : Runtime) : Exec Unit :=
  execute_dependence_analysis_with PhysicalTrace.start_new_template rt

/-- How a run ended, with the fields and the log it ended with. -/
structure Outcome where
  op : MemoizableOp
  log : List Event
  fault : Option Fault
deriving DecidableEq, Repr

/-- Run a method on an operation, with an empty call log. -/
def run {α : Type} (m : Exec α) (op : MemoizableOp) : Outcome :=
  match m { op := op, log := [] } with
  | Res.ret _ s => { op := s.op, log := s.log, fault := none }
  | Res.abort f s => { op := s.op, log := s.log, fault := some f }

/-- The calls of a run, in order. -/
def Outcome.calls (r : Outcome) : List Call :=
  r.log.map Event.call

/-- How many times a run made the call `c`. -/
def Outcome.times (r : Outcome) (c : Call) : Nat :=
  r.calls.count c

/-- The arguments of a `register_physical_only` call, if the call is one. -/
def Call.registration : Call → Option (Nat × Nat)
  | Call.register_physical_only o g => some (o, g)
  | _ => none

/-- The `register_physical_only` calls of a run, in order, each as the pair
(operation, generation) it was given. -/
def Outcome.registrations (r : Outcome) : List (Nat × Nat) :=
  r.calls.filterMap Call.registration

/-- Whether a call is `tpl->is_replaying()` on some template. -/
def Call.is_template_query : Call → Bool
  | Call.is_replaying _ => true
  | _ => false

/-- What the mapper `mapper_id` answers for this operation: the output it leaves
when handed the input and the preset output `invoke_memoize_operation` builds. -/
def policy_response (rt : Runtime) (mapper_id : Nat) (op : MemoizableOp) : MemoizeOutput :=
  (rt.find_mapper op.executing_processor mapper_id).memoize_operation
    { traced := has_trace op } { memoize := false }

/-- The entry points a caller may invoke on an initialised operation, under the
names the spec gives them. -/
inductive Request where
  | request_memoize (flag : Bool)
  | decide_memoization (mapper_id : Nat)
  | enter_analysis
  | trace_local_id
deriving DecidableEq, Repr

/-- The method behind each entry point. -/
def perform (rt : Runtime) : Request → Exec Unit
  | Request.request_memoize flag => set_memoize rt flag
  | Request.decide_memoization mapper_id => invoke_memoize_operation rt mapper_id
  | Request.enter_analysis => execute_dependence_analysis rt
  | Request.trace_local_id => do
      let _ ← get_trace_local_id
      pure ()

/-- The entry points that can request memoization (they end in `set_memoize`). -/
def Request.sets_memoize : Request → Bool
  | Request.request_memoize _ => true
  | Request.decide_memoization _ => true
  | _ => false

/-- The entry points the subsystem exposes to the analysis pipeline (spec section 6):
all but the internal `request_memoize`. -/
def Request.exposed : Request → Bool
  | Request.request_memoize _ => false
  | _ => true

/-- The operation has already been through its record-or-replay decision. -/
def decided (op : MemoizableOp) : Bool :=
  decide (op.memo_state = MemoState.RECORD) || decide (op.memo_state = MemoState.REPLAY)

/-- A call is shielded when the build checks its precondition (`DEBUG_LEGION`), or
when it is not a memoization request made on an operation that has already been
through its record-or-replay decision. -/
def shielded (rt : Runtime) (op : MemoizableOp) (req : Request) : Bool :=
  rt.DEBUG_LEGION || !(req.sets_memoize && decided op)

/-- One legal move of `memo_state`: it stays, or it goes from `NO_MEMO` to
`MEMO_REQ`, or from `MEMO_REQ` to `RECORD` or to `REPLAY`. -/
def advances : MemoState → MemoState → Bool
  | MemoState.NO_MEMO, MemoState.NO_MEMO => true
  | MemoState.NO_MEMO, MemoState.MEMO_REQ => true
  | MemoState.MEMO_REQ, MemoState.MEMO_REQ => true
  | MemoState.MEMO_REQ, MemoState.RECORD => true
  | MemoState.MEMO_REQ, MemoState.REPLAY => true
  | MemoState.RECORD, MemoState.RECORD => true
  | MemoState.REPLAY, MemoState.REPLAY => true
  | _, _ => false

/-- The position of a state along `NO_MEMO`, `MEMO_REQ`, then `RECORD` or `REPLAY`. -/
def MemoState.rank : MemoState → Nat
  | MemoState.NO_MEMO => 0
  | MemoState.MEMO_REQ => 1
  | MemoState.RECORD => 2
  | MemoState.REPLAY => 2

/-- The environment changing the trace object an operation points to (other
operations of the trace start templates, templates become ready to replay): the
object changes, the pointer stays present or absent as it was. -/
def retarget (t : LegionTrace) (op : MemoizableOp) : MemoizableOp :=
  { op with trace := op.trace.map (fun _ => t) }

/-- The states of an operation reachable from initialisation by calls that
return, each call allowed by `allowed` in the state it is made in, with the
environment free to change the trace object between calls. -/
inductive Reachable (rt : Runtime) (allowed : MemoizableOp → Request → Bool) : MemoizableOp → Prop where
  | init (op0 : MemoizableOp) : Reachable rt allowed (run initialize_memoizable op0).op
  | call (op : MemoizableOp) (req : Request) :
      Reachable rt allowed op → allowed op req = true →
      (run (perform rt req) op).fault = none →
      Reachable rt allowed (run (perform rt req) op).op
  | env (op : MemoizableOp) (t : LegionTrace) :
      Reachable rt allowed op → Reachable rt allowed (retarget t op)


/-- A mapper that always asks for memoization. -/
def always_memoize : MapperManager :=
  { memoize_operation := fun _ _ => { memoize := true } }

/-- A mapper that leaves the output it is handed untouched. -/
def leave_untouched : MapperManager :=
  { memoize_operation := fun _ output => output }

/-- A debug build with both kill switches off; mapper 0 always asks for
memoization, every other mapper leaves the output untouched. -/
def debug_runtime : Runtime :=
  { DEBUG_LEGION := true, no_tracing := false, no_physical_tracing := false,
    find_mapper := fun _ mapper_id => if mapper_id = 0 then always_memoize else leave_untouched }

/-- The same runtime built without `DEBUG_LEGION`. -/
def release_runtime : Runtime :=
  { debug_runtime with DEBUG_LEGION := false }

/-- A trace in replay mode whose current template (number 3) is replaying. -/
def replaying_trace : LegionTrace :=
  { state := TracingState.PHYSICAL_REPLAY,
    physical_trace := some { current_template := some { id := 3, replaying := true },
                             next_template_id := 4 } }

/-- A trace whose store has no current template yet. -/
def fresh_trace : LegionTrace :=
  { state := TracingState.LOGICAL_ONLY,
    physical_trace := some { current_template := none, next_template_id := 0 } }

/-- Operation 7, generation 2, at position 11 of its trace, with the given trace
pointer, template pointer and memoization state. -/
def sample_op (trace : Option LegionTrace) (tpl : Option PhysicalTemplate) (st : MemoState) :
    MemoizableOp :=
  { unique_op_id := 7, gen := 2, trace := trace, trace_local_id := 11, executing_processor := 0,
    tpl := tpl, memo_state := st }

/-- A traced operation taken through initialisation and a granted memoization
request. -/
def requested_op (rt : Runtime) : MemoizableOp :=
  (run (perform rt (Request.request_memoize true))
    (run initialize_memoizable (sample_op (some fresh_trace) none MemoState.NO_MEMO)).op).op

/-- The same operation after its dependence analysis: it started template 0 and is
recording. -/
def recorded_op (rt : Runtime) : MemoizableOp :=
  (run (perform rt Request.enter_analysis) (requested_op rt)).op

/-- The value a method returns on an operation, when its run returns. -/
def returned {α : Type} (m : Exec α) (op : MemoizableOp) : Option α :=
  match m { op := op, log := [] } with
  | Res.ret a _ => some a
  | Res.abort _ _ => none

/-- Two consecutive calls of `get_trace_local_id` on the same operation, returning
both results. -/
def get_trace_local_id_twice : Exec ((Nat × DomainPoint) × (Nat × DomainPoint)) := do
  let first ← get_trace_local_id
  let second ← get_trace_local_id
  pure (first, second)

/-- The calls made on the trace or on its template store. -/
def Call.on_trace_or_store : Call → Bool
  | Call.get_physical_trace => true
  | Call.get_current_template => true
  | Call.set_state_record => true
  | Call.start_new_template => true
  | Call.is_replaying _ => true
  | Call.register_physical_only _ _ => true
  | Call.trace_is_replaying => true
  | Call.trace_is_recording => true
  | _ => false

/-- The two calls that open a recording: marking the trace and starting a
template. -/
def Call.opens_recording : Call → Bool
  | Call.set_state_record => true
  | Call.start_new_template => true
  | _ => false

/-- Whether a log entry is a call of the normal analysis hook. -/
def Event.is_normal_analysis (e : Event) : Bool :=
  decide (e.call = Call.OP_execute_dependence_analysis)

/-- The template `execute_dependence_analysis` consults at line 66 when the store's
`start_new_template` is the given function: the store's current template when there
is one, the template that function returns when there is none. -/
def PhysicalTrace.consulted_with
    (start_new_template : PhysicalTrace → PhysicalTemplate × PhysicalTrace)
    (pt : PhysicalTrace) : PhysicalTemplate :=
  match pt.get_current_template with
  | some tpl => tpl
  | none => (start_new_template pt).1

/-- What the assertions of lines 69 and 80 check when the store's
`start_new_template` is the given function.  With a current template the trace is in
replay mode when that template is replaying and in record mode when it is being
recorded; with none, line 62 has just put the trace in record mode, so the started
template must be one that is being recorded. -/
def mode_agrees_with
    (start_new_template : PhysicalTrace → PhysicalTemplate × PhysicalTrace)
    (t : LegionTrace) (pt : PhysicalTrace) : Bool :=
  match pt.get_current_template with
  | some tpl => if tpl.is_replaying then t.is_replaying else t.is_recording
  | none => !(start_new_template pt).1.is_replaying

/-- A store whose started template already reports `is_replaying()`. -/
def start_replaying_template (pt : PhysicalTrace) : PhysicalTemplate × PhysicalTrace :=
  let t : PhysicalTemplate := { id := pt.next_template_id, replaying := true }
  (t, { current_template := some t, next_template_id := pt.next_template_id + 1 })

/-- Calls made one after another on the same operation, each starting from the
fields the one before left (also when that one stopped with a fault). -/
def run_all (rt : Runtime) : List Request → MemoizableOp → MemoizableOp
  | [], op => op
  | req :: rest, op => run_all rt rest (run (perform rt req) op).op

/-- A trace in record mode whose current template (number 5) is being recorded. -/
def recording_trace : LegionTrace :=
  { state := TracingState.PHYSICAL_RECORD,
    physical_trace := some { current_template := some { id := 5, replaying := false },
                             next_template_id := 6 } }

/-- An operation taken through initialisation and then `invoke_memoize_operation`
with the given mapper. -/
def after_decision (rt : Runtime) (mapper_id : Nat) (op0 : MemoizableOp) : Outcome :=
  run (invoke_memoize_operation rt mapper_id) (run initialize_memoizable op0).op

/-- A memoization request that `set_memoize` grants when it is reached:
`request_memoize` with a true flag, or `decide_memoization` on a traced operation
whose mapper answers `memoize = true`, in both cases with both kill switches off. -/
def granted (rt : Runtime) (op : MemoizableOp) : Request → Bool
  | Request.request_memoize flag => flag && !rt.no_tracing && !rt.no_physical_tracing
  | Request.decide_memoization mapper_id =>
      (policy_response rt mapper_id op).memoize && has_trace op && !rt.no_tracing &&
        !rt.no_physical_tracing
  | _ => false

/-- The one kind of call that moves `memo_state` backwards: a granted memoization
request on an operation already in `RECORD` or `REPLAY`, in a build that does not
check the precondition of `set_memoize`. -/
def regressing (rt : Runtime) (op : MemoizableOp) (req : Request) : Bool :=
  !rt.DEBUG_LEGION && decided op && granted rt op req

/-- Whether a log entry was made with `memo_state` already `REPLAY`. -/
def Event.after_replay_set (e : Event) : Bool :=
  decide (e.memo_state = MemoState.REPLAY)

/-- A trace still in its first mode although its current template (number 3) is
replaying. -/
def unready_replay_trace : LegionTrace :=
  { replaying_trace with state := TracingState.LOGICAL_ONLY }

/-- A trace in record mode although its current template (number 3) is replaying. -/
def stale_record_trace : LegionTrace :=
  { replaying_trace with state := TracingState.PHYSICAL_RECORD }

/-- A trace still in its first mode although its current template (number 5) is
being recorded. -/
def unmarked_recording_trace : LegionTrace :=
  { recording_trace with state := TracingState.LOGICAL_ONLY }

/-- A trace in replay mode although its current template (number 5) is being
recorded. -/
def stale_replay_trace : LegionTrace :=
  { recording_trace with state := TracingState.PHYSICAL_REPLAY }

end Internal
end Legion

/-! # The test program `structured_proj_test_programs/current_optimum_angle`

A shallow embedding of `compute_task`, `init_field_task`, `check_task` and of the
two colourings built in `top_level_task`.

Conventions of the embedding.
* A field of a region is a function from points to the `int` stored there; a write
  through an accessor updates the function at one point.
* Coordinates (`coord_t`, `long int`) are integers.  A value of type `int` is an
  integer kept in the 32-bit two's-complement range by `int32`, applied wherever the
  source computes or stores an `int` from field values.
* A loop is a fold over the list of values its variable takes, in the order the
  loop takes them.
* The block arithmetic of `top_level_task` (block counts, offsets, block corners)
  is on quantities bounded by the block counts and the side lengths, and is exact.
-/

namespace CurrentOptimumAngle

/-- The value an `int` holds after a computation whose exact result is `z`: `z`
wrapped into the range from `-2^31` to `2^31 - 1`. -/
def int32 (z : Int) : Int :=
  (z + 2147483648) % 4294967296 - 2147483648

/-- A `Point<2>`. -/
abbrev Point2 : Type := Int × Int

/-- A `Rect<2>`: the points between `lo` and `hi`, both included. -/
structure Rect2 where
  lo : Point2
  hi : Point2
deriving DecidableEq, Repr

/-- Membership of a point in a rectangle. -/
def Rect2.contains (r : Rect2) (p : Point2) : Prop :=
  r.lo.1 ≤ p.1 ∧ p.1 ≤ r.hi.1 ∧ r.lo.2 ≤ p.2 ∧ p.2 ≤ r.hi.2

instance (r : Rect2) (p : Point2) : Decidable (r.contains p) := by
  unfold Rect2.contains
  exact inferInstance

/-- The values of a loop `for (v = lo; v <= hi; v++)`, in order. -/
def ascending (lo hi : Int) : List Int :=
  (List.range (hi - lo + 1).toNat).map (fun (k : Nat) => lo + (k : Int))

/-- The values of a loop `for (v = hi; v >= lo; v--)`, in order. -/
def descending (lo hi : Int) : List Int :=
  (List.range (hi - lo + 1).toNat).map (fun (k : Nat) => hi - (k : Int))

/-- The points a `PointInRectIterator<2>` visits.  The iterator is declared in a
Legion header that is not among the sources; it visits every point of the rectangle
once, the first coordinate varying fastest. -/
def Rect2.points (r : Rect2) : List Point2 :=
  (ascending r.lo.2 r.hi.2).flatMap (fun y => (ascending r.lo.1 r.hi.1).map (fun x => (x, y)))

/-- A write through a field accessor: the field after `acc.write(p, v)`. -/
def write (field : Point2 → Int) (p : Point2) (v : Int) : Point2 → Int :=
  fun q => if q = p then v else field q

/-- A region a task only reads: the volume of its domain and the contents of its
field. -/
structure ReadRegion where
  volume : Nat
  read : Point2 → Int

/-- The three fields of the top-level region: `FID_X`, `FID_Y`, `FID_VAL`. -/
structure Fields where
  x : Point2 → Int
  y : Point2 → Int
  val : Point2 → Int

/-- The struct `RectDims` (lines 59-62). -/
structure RectDims where
  side_length_x : Int
  side_length_y : Int
deriving DecidableEq, Repr

/-- The body of the two loops of `compute_task` (lines 651-697) at the point
`(x, y)`, on the current contents `curr` of the field being computed. -/
def compute_point (x_diff y_diff : ReadRegion) (rect : Rect2) (curr : Point2 → Int)
    (x y : Int) : Point2 → Int :=
  let cur_point : Point2 := (x, y)
  let idx_x : Point2 := (x + 1, y)
  let idx_y : Point2 := (x, y + 1)
  let x_diff_val : Int :=
    if x = rect.hi.1 then
      (if x_diff.volume > 0 then x_diff.read idx_x else 0)
    else curr idx_x
  let y_diff_val : Int :=
    if y = rect.hi.2 then
      (if y_diff.volume > 0 then y_diff.read idx_y else 0)
    else curr idx_y
  let computed_val : Int :=
    if x_diff_val > y_diff_val then int32 (x_diff_val + 1) else int32 (y_diff_val + 1)
  write curr cur_point computed_val

/-- Function `compute_task` (lines 608-700): `regions[0]` and `regions[1]` are the
two neighbour regions, `rect` is the domain of `regions[2]` and `curr` the contents
of its field before the call; the result is the contents after the call. -/
def compute_task (x_diff y_diff : ReadRegion) (rect : Rect2) (curr : Point2 → Int) :
    Point2 → Int :=
  (descending rect.lo.1 rect.hi.1).foldl
    (fun c x => (descending rect.lo.2 rect.hi.2).foldl
      (fun c1 y => compute_point x_diff y_diff rect c1 x y) c)
    curr

/-- Function `init_field_task` (lines 484-518) on the rectangle `rect`: at every
point it writes the first coordinate to `FID_X`, the second to `FID_Y` and 1 to
`FID_VAL` (a coordinate is stored as an `int`). -/
def init_field_task (rect : Rect2) (fields : Fields) : Fields :=
  rect.points.foldl
    (fun f p => { x := write f.x p (int32 p.1),
                  y := write f.y p (int32 p.2),
                  val := write f.val p 1 })
    fields

/-- The value `expected` of `check_task` (lines 749-752) at a point. -/
def expected (dims : RectDims) (fields : Fields) (p : Point2) : Int :=
  let x := int32 (int32 (dims.side_length_x - 1) - fields.x p)
  let y := int32 (int32 (dims.side_length_y - 1) - fields.y p)
  int32 (int32 (x + y) + 1)

/-- The loop of `check_task` (lines 746-762) over the points still to visit: the
final value of `all_passed`.  The loop stops at the first point where `expected`
differs from the stored value. -/
def all_passed (dims : RectDims) (fields : Fields) : List Point2 → Bool
  | [] => true
  | p :: rest =>
    if expected dims fields p ≠ fields.val p then false else all_passed dims fields rest

/-- What `check_task` prints: `SUCCESS!` or `FAILURE!`. -/
inductive Printed where
  | SUCCESS
  | FAILURE
deriving DecidableEq, Repr

/-- Function `check_task` (lines 717-767). -/
def check_task (dims : RectDims) (rect : Rect2) (fields : Fields) : Printed :=
  if all_passed dims fields rect.points then Printed.SUCCESS else Printed.FAILURE

/-- A neighbour region with an empty domain. -/
def empty_region : ReadRegion :=
  { volume := 0, read := fun _ => 0 }

/-- The rectangle of one block, as `top_level_task` builds it for the block
`(x, y)` (lines 309-313). -/
def subrect (points_per_partition_x points_per_partition_y x y : Int) : Rect2 :=
  let x_start := x * points_per_partition_x
  let y_start := y * points_per_partition_y
  let x_end := x_start + points_per_partition_x - 1
  let y_end := y_start + points_per_partition_y - 1
  { lo := (x_start, y_start), hi := (x_end, y_end) }

/-- The first-level colouring `d_coloring` of `top_level_task` (lines 302-317), as
the list of its insertions, in order: each is a colour and the rectangle inserted
under it. -/
def d_coloring (num_subregions_x num_subregions_y ppx ppy : Int) : List (Int × Rect2) :=
  (ascending 0 (num_subregions_x - 1)).flatMap (fun x =>
    (ascending 0 (num_subregions_y - 1)).map (fun y => (x + y, subrect ppx ppy x y)))

/-- The three numbers `top_level_task` computes for one diagonal colour
(lines 328-341). -/
structure DiagSlice where
  bound : Int
  short_offset : Int
  long_offset : Int
deriving DecidableEq, Repr

/-- Lines 291, 323-341 of `top_level_task` for the colour `p0` (`itr.p[0]`). -/
def diag_slice (num_subregions_x num_subregions_y p0 : Int) : DiagSlice :=
  let total_diag_slices := num_subregions_x + num_subregions_y - 1
  let min_subregions :=
    if num_subregions_x < num_subregions_y then num_subregions_x else num_subregions_y
  let bound := p0 + 1
  if bound > total_diag_slices - min_subregions then
    { long_offset := bound - min_subregions,
      short_offset := bound - total_diag_slices + min_subregions - 1,
      bound := total_diag_slices - bound + 1 }
  else if bound > min_subregions then
    { long_offset := bound - min_subregions, short_offset := 0, bound := min_subregions }
  else
    { bound := bound, short_offset := 0, long_offset := 0 }

/-- The variable `x_offset` (lines 343-353). -/
def x_offset (num_subregions_x num_subregions_y : Int) (s : DiagSlice) : Int :=
  if num_subregions_x < num_subregions_y then s.short_offset else s.long_offset

/-- The variable `y_offset` (lines 343-353). -/
def y_offset (num_subregions_x num_subregions_y : Int) (s : DiagSlice) : Int :=
  if num_subregions_x < num_subregions_y then s.long_offset else s.short_offset

/-- The empty rectangle of line 367. -/
def empty_rect : Rect2 :=
  { lo := (0, 0), hi := (-1, -1) }

/-- The rectangle `top_level_task` gives the sub-colour `k` (`itr2.p[0]`) of the
diagonal colour `p0` (lines 364-377). -/
def sub_color_rect (num_subregions_x num_subregions_y ppx ppy p0 k : Int) : Rect2 :=
  let s := diag_slice num_subregions_x num_subregions_y p0
  if k = -1 ∨ k = s.bound then empty_rect
  else
    let x_start := (k + x_offset num_subregions_x num_subregions_y s) * ppx
    let y_start := (s.bound - k - 1 + y_offset num_subregions_x num_subregions_y s) * ppy
    let x_end := x_start + ppx - 1
    let y_end := y_start + ppy - 1
    { lo := (x_start, y_start), hi := (x_end, y_end) }

/-- The second-level colouring `sub_d_coloring` of the diagonal colour `p0`
(lines 355-378), as the list of its assignments, in order: each is a sub-colour of
the domain from -1 to `bound` and the rectangle assigned to it. -/
def sub_d_coloring (num_subregions_x num_subregions_y ppx ppy p0 : Int) : List (Int × Rect2) :=
  (ascending (-1) (diag_slice num_subregions_x num_subregions_y p0).bound).map
    (fun k => (k, sub_color_rect num_subregions_x num_subregions_y ppx ppy p0 k))

/-- The block whose rectangle the sub-colour `k` of the diagonal colour `p0` gets:
the two factors of `x_start` and `y_start` in lines 371-373. -/
def sub_color_block (num_subregions_x num_subregions_y p0 k : Int) : Int × Int :=
  let s := diag_slice num_subregions_x num_subregions_y p0
  (k + x_offset num_subregions_x num_subregions_y s,
   s.bound - k - 1 + y_offset num_subregions_x num_subregions_y s)

/-- The grid `elem_rect` of `top_level_task` (lines 273-274). -/
def elem_rect (side_length_x side_length_y : Int) : Rect2 :=
  { lo := (0, 0), hi := (side_length_x - 1, side_length_y - 1) }

/-- The fields after `init_field_task` and then `compute_task` with empty neighbour
regions, both run over the whole rectangle. -/
def init_then_compute (rect : Rect2) (fields : Fields) : Fields :=
  { init_field_task rect fields with
    val := compute_task empty_region empty_region rect (init_field_task rect fields).val }

end CurrentOptimumAngle

namespace Legion
namespace Internal

/-! ## Running the primitives -/

theorem Exec.bind_apply {α β : Type} (m : Exec α) (f : α → Exec β) (s : Sys) :
    (m >>= f) s = match m s with
      | Res.ret a s1 => f a s1
      | Res.abort e s1 => Res.abort e s1 := rfl

theorem Exec.pure_apply {α : Type} (a : α) (s : Sys) : (pure a : Exec α) s = Res.ret a s := rfl

theorem Exec.fail_apply {α : Type} (f : Fault) (s : Sys) :
    (Exec.fail f : Exec α) s = Res.abort f s := rfl

theorem getOp_apply (s : Sys) : getOp s = Res.ret s.op s := rfl

theorem modifyOp_apply (f : MemoizableOp → MemoizableOp) (s : Sys) :
    modifyOp f s = Res.ret () { s with op := f s.op } := rfl

theorem emit_apply (c : Call) (s : Sys) : emit c s = Res.ret () (s.logged c) := rfl

theorem debug_assert_apply (rt : Runtime) (line : Nat) (cond : MemoizableOp → Bool) (s : Sys) :
    debug_assert rt line cond s =
      if rt.DEBUG_LEGION = true ∧ cond s.op = false then Res.abort (Fault.assertion_failed line) s
      else Res.ret () s := by
  unfold debug_assert
  cases rt.DEBUG_LEGION <;> cases cond s.op <;> simp

/-- What `set_memoize` does from any state: in a debug build it stops at the
assertion unless the state is `NO_MEMO`; otherwise it sets `MEMO_REQ` when the flag
is true and both kill switches are off, and changes nothing when not. -/
theorem set_memoize_apply (rt : Runtime) (flag : Bool) (s : Sys) :
    set_memoize rt flag s =
      if rt.DEBUG_LEGION = true ∧ s.op.memo_state ≠ MemoState.NO_MEMO then
        Res.abort (Fault.assertion_failed 121) s
      else if flag = true ∧ rt.no_tracing = false ∧ rt.no_physical_tracing = false then
        Res.ret () { s with op := { s.op with memo_state := MemoState.MEMO_REQ } }
      else Res.ret () s := by
  unfold set_memoize
  simp only [Exec.bind_apply, debug_assert_apply]
  by_cases h : rt.DEBUG_LEGION = true ∧ s.op.memo_state ≠ MemoState.NO_MEMO
  · have h1 : (rt.DEBUG_LEGION = true ∧
        decide (s.op.memo_state = MemoState.NO_MEMO) = false) := by simpa using h
    rw [if_pos h1, if_pos h]
  · have h1 : ¬ (rt.DEBUG_LEGION = true ∧
        decide (s.op.memo_state = MemoState.NO_MEMO) = false) := by simpa using h
    rw [if_neg h1, if_neg h]
    cases flag <;> cases rt.no_tracing <;> cases rt.no_physical_tracing <;> rfl

/-- What `invoke_memoize_operation` does from any state: it consults the mapper,
stops with the error when the operation is untraced and the answer says memoize,
and otherwise hands the answer to `set_memoize`. -/
theorem invoke_memoize_operation_apply (rt : Runtime) (mapper_id : Nat) (s : Sys) :
    invoke_memoize_operation rt mapper_id s =
      if s.op.trace = none ∧ (policy_response rt mapper_id s.op).memoize = true then
        Res.abort (Fault.legion_error ErrorCode.ERROR_INVALID_PHYSICAL_TRACING)
          (s.logged (Call.mapper_memoize_operation ⟨has_trace s.op⟩ ⟨false⟩))
      else
        set_memoize rt (policy_response rt mapper_id s.op).memoize
          (s.logged (Call.mapper_memoize_operation ⟨has_trace s.op⟩ ⟨false⟩)) := by
  unfold invoke_memoize_operation
  simp only [Exec.bind_apply, getOp_apply, emit_apply]
  by_cases h : s.op.trace = none ∧ (policy_response rt mapper_id s.op).memoize = true
  · have h1 : (!has_trace s.op && (policy_response rt mapper_id s.op).memoize) = true := by
      simp [has_trace, h.1, h.2]
    rw [if_pos h]
    simp only [policy_response] at h1 ⊢
    simp only [h1, REPORT_LEGION_ERROR]
    rfl
  · have h1 : (!has_trace s.op && (policy_response rt mapper_id s.op).memoize) = false := by
      cases htr : s.op.trace <;> cases hm : (policy_response rt mapper_id s.op).memoize <;>
        simp_all [has_trace]
    rw [if_neg h]
    simp only [policy_response] at h1 ⊢
    simp only [h1]
    rfl

/-- What `execute_dependence_analysis` does to an operation in `MEMO_REQ`: a run
that returns has made the record-or-replay decision and set `tpl`; a run that
stops has left `memo_state` alone; the trace pointer stays present or absent; and
with a trace present the run stops neither at the assertion of line 55 nor on a
`NULL` trace at line 58. -/
theorem execute_from_memo_req (rt : Runtime) (op : MemoizableOp)
    (hs : op.memo_state = MemoState.MEMO_REQ) :
    ((run (execute_dependence_analysis rt) op).fault = none →
      decided (run (execute_dependence_analysis rt) op).op = true ∧
      (run (execute_dependence_analysis rt) op).op.tpl.isSome = true) ∧
    ((run (execute_dependence_analysis rt) op).fault ≠ none →
      (run (execute_dependence_analysis rt) op).op.memo_state = MemoState.MEMO_REQ) ∧
    (run (execute_dependence_analysis rt) op).op.trace.isSome = op.trace.isSome ∧
    (op.trace.isSome = true →
      (run (execute_dependence_analysis rt) op).fault ≠ some (Fault.assertion_failed 55) ∧
      (run (execute_dependence_analysis rt) op).fault ≠ some (Fault.null_dereference 58)) := by
  obtain ⟨i, g, tr, l, pr, tp, st⟩ := op
  simp only at hs
  subst hs
  obtain ⟨dbg, nt, npt, fm⟩ := rt
  cases dbg <;> rcases tr with _ | ⟨_ | _ | _, _ | ⟨_ | ⟨k, _ | _⟩, n⟩⟩ <;>
    simp [run, execute_dependence_analysis, execute_dependence_analysis_with, bind, Exec.bind, pure, Exec.pure, debug_assert, debug_assert_calling, getOp,
      modifyOp, emit, Sys.logged, deref_trace, deref_physical_trace, deref_tpl, store_trace,
      LegionTrace.get_physical_trace, PhysicalTrace.get_current_template,
      PhysicalTemplate.is_replaying, PhysicalTrace.start_new_template,
      LegionTrace.set_state_record, LegionTrace.is_recording, LegionTrace.is_replaying,
      has_trace, has_physical_trace, trace_is_recording, trace_is_replaying, decided]

/-- What `execute_dependence_analysis` does to an operation in `NO_MEMO`. -/
theorem execute_from_no_memo (rt : Runtime) (op : MemoizableOp)
    (hs : op.memo_state = MemoState.NO_MEMO) :
    run (execute_dependence_analysis rt) op =
      { op := op,
        log := [{ call := Call.OP_execute_dependence_analysis, memo_state := MemoState.NO_MEMO,
                  tpl := op.tpl }],
        fault := none } := by
  cases hdb : rt.DEBUG_LEGION <;>
  simp [run, execute_dependence_analysis, execute_dependence_analysis_with, bind, Exec.bind, debug_assert, debug_assert_calling, getOp, emit, Sys.logged,
    hs, hdb]

/-- What `execute_dependence_analysis` does to an operation already in `RECORD` or
`REPLAY`: a debug build stops at the assertion of line 50 before anything else; a
build without `DEBUG_LEGION` goes straight to the normal analysis hook. -/
theorem execute_when_decided (rt : Runtime) (op : MemoizableOp) (hs : decided op = true) :
    run (execute_dependence_analysis rt) op =
      if rt.DEBUG_LEGION = true then
        { op := op, log := [], fault := some (Fault.assertion_failed 50) }
      else
        { op := op,
          log := [{ call := Call.OP_execute_dependence_analysis, memo_state := op.memo_state,
                    tpl := op.tpl }],
          fault := none } := by
  obtain ⟨i, g, tr, l, pr, tp, st⟩ := op
  cases hdb : rt.DEBUG_LEGION <;> cases st <;>
    simp [decided] at hs <;>
    simp [run, execute_dependence_analysis, execute_dependence_analysis_with, bind, Exec.bind, debug_assert, debug_assert_calling, getOp, emit, Sys.logged,
      hdb]

/-- What `get_trace_local_id` does: it returns, with no call and no change. -/
theorem run_get_trace_local_id (rt : Runtime) (op : MemoizableOp) :
    run (perform rt Request.trace_local_id) op = { op := op, log := [], fault := none } := rfl

/-- What a memoization request (`set_memoize`, directly or through
`invoke_memoize_operation`) does to the fields: `tpl` and the trace pointer are
untouched; `memo_state` keeps its value or becomes `MEMO_REQ`; a debug build lets
it return only from `NO_MEMO`; and through `invoke_memoize_operation` it changes
`memo_state` only on a traced operation. -/
theorem memoize_request_summary (rt : Runtime) (op : MemoizableOp) (req : Request)
    (hreq : req.sets_memoize = true) :
    (run (perform rt req) op).op.tpl = op.tpl ∧
    (run (perform rt req) op).op.trace = op.trace ∧
    ((run (perform rt req) op).fault = none → rt.DEBUG_LEGION = true →
      op.memo_state = MemoState.NO_MEMO) ∧
    ((run (perform rt req) op).op.memo_state = op.memo_state ∨
      (run (perform rt req) op).op.memo_state = MemoState.MEMO_REQ) ∧
    ((run (perform rt req) op).op.memo_state ≠ op.memo_state → req.exposed = true →
      op.trace.isSome = true) := by
  cases req with
  | request_memoize flag =>
    have h := set_memoize_apply rt flag { op := op, log := [] }
    by_cases h1 : rt.DEBUG_LEGION = true ∧ op.memo_state ≠ MemoState.NO_MEMO
    · rw [if_pos h1] at h
      simp [run, perform, h, h1.1, h1.2]
    · rw [if_neg h1] at h
      by_cases h2 : flag = true ∧ rt.no_tracing = false ∧ rt.no_physical_tracing = false
      · rw [if_pos h2] at h
        simp only [not_and, ne_eq, not_not] at h1
        simp [run, perform, h, Request.exposed]
        exact h1
      · rw [if_neg h2] at h
        simp only [not_and, ne_eq, not_not] at h1
        simp [run, perform, h]
        exact h1
  | decide_memoization mapper_id =>
    have h := invoke_memoize_operation_apply rt mapper_id { op := op, log := [] }
    by_cases h0 : op.trace = none ∧ (policy_response rt mapper_id op).memoize = true
    · rw [if_pos h0] at h
      simp [run, perform, h, Sys.logged]
    · rw [if_neg h0] at h
      have h' := set_memoize_apply rt (policy_response rt mapper_id op).memoize
        (Sys.logged { op := op, log := [] }
          (Call.mapper_memoize_operation ⟨has_trace op⟩ ⟨false⟩))
      rw [h'] at h
      by_cases h1 : rt.DEBUG_LEGION = true ∧ op.memo_state ≠ MemoState.NO_MEMO
      · have h1' : rt.DEBUG_LEGION = true ∧
            (Sys.logged { op := op, log := [] }
              (Call.mapper_memoize_operation ⟨has_trace op⟩ ⟨false⟩)).op.memo_state
              ≠ MemoState.NO_MEMO := h1
        rw [if_pos h1'] at h
        simp [run, perform, h, h1.1, h1.2, Sys.logged]
      · have h1' : ¬ (rt.DEBUG_LEGION = true ∧
            (Sys.logged { op := op, log := [] }
              (Call.mapper_memoize_operation ⟨has_trace op⟩ ⟨false⟩)).op.memo_state
              ≠ MemoState.NO_MEMO) := h1
        rw [if_neg h1'] at h
        simp only [not_and, ne_eq, not_not] at h1
        by_cases h2 : (policy_response rt mapper_id op).memoize = true ∧ rt.no_tracing = false ∧
            rt.no_physical_tracing = false
        · rw [if_pos h2] at h
          have htr : op.trace ≠ none := fun hn => h0 ⟨hn, h2.1⟩
          simp [run, perform, h, Sys.logged, Option.isSome_iff_ne_none, htr]
          exact h1
        · rw [if_neg h2] at h
          simp [run, perform, h, Sys.logged]
          exact h1
  | enter_analysis => simp [Request.sets_memoize] at hreq
  | trace_local_id => simp [Request.sets_memoize] at hreq

/-- What `execute_dependence_analysis` does to `memo_state`, `tpl` and the trace
pointer, from any state: a run that returns either changed nothing (from `NO_MEMO`,
or from `RECORD` or `REPLAY` in a build without `DEBUG_LEGION`) or went from
`MEMO_REQ` to `RECORD` or `REPLAY` with `tpl` set; a run that stops has left
`memo_state` alone; the trace pointer stays present or absent. -/
theorem analysis_summary (rt : Runtime) (op : MemoizableOp) :
    ((run (execute_dependence_analysis rt) op).fault = none →
      ((run (execute_dependence_analysis rt) op).op = op ∧
        (rt.DEBUG_LEGION = true → decided op = false)) ∨
      (op.memo_state = MemoState.MEMO_REQ ∧
        decided (run (execute_dependence_analysis rt) op).op = true ∧
        (run (execute_dependence_analysis rt) op).op.tpl.isSome = true)) ∧
    ((run (execute_dependence_analysis rt) op).fault ≠ none →
      (run (execute_dependence_analysis rt) op).op.memo_state = op.memo_state) ∧
    (run (execute_dependence_analysis rt) op).op.trace.isSome = op.trace.isSome := by
  cases hst : op.memo_state with
  | NO_MEMO =>
    rw [execute_from_no_memo rt op hst]
    simp [decided, hst]
  | MEMO_REQ =>
    have h := execute_from_memo_req rt op hst
    exact ⟨fun hf => Or.inr ⟨rfl, h.1 hf⟩, h.2.1, h.2.2.1⟩
  | RECORD =>
    have hd : decided op = true := by simp [decided, hst]
    rw [execute_when_decided rt op hd]
    cases hdb : rt.DEBUG_LEGION <;> simp [hst]
  | REPLAY =>
    have hd : decided op = true := by simp [decided, hst]
    rw [execute_when_decided rt op hd]
    cases hdb : rt.DEBUG_LEGION <;> simp [hst]

/-- The legal moves of `memo_state`, spelled out. -/
theorem advances_facts (a b : MemoState) (h : advances a b = true) :
    ¬ (a = MemoState.RECORD ∧ b = MemoState.REPLAY) ∧
    ¬ (a = MemoState.REPLAY ∧ b = MemoState.RECORD) ∧
    a.rank ≤ b.rank := by
  cases a <;> cases b <;> simp [advances, MemoState.rank] at h ⊢

/-- A shielded call, whether it returns or stops, moves `memo_state` by a legal
move. -/
theorem shielded_step (rt : Runtime) (op : MemoizableOp) (req : Request)
    (h : shielded rt op req = true) :
    advances op.memo_state (run (perform rt req) op).op.memo_state = true := by
  cases hreq : req.sets_memoize with
  | true =>
    have hsum := memoize_request_summary rt op req hreq
    rcases hsum.2.2.2.1 with heq | hnew
    · rw [heq]
      cases op.memo_state <;> rfl
    · by_cases hsame : (run (perform rt req) op).op.memo_state = op.memo_state
      · rw [hsame]
        cases op.memo_state <;> rfl
      · rw [hnew]
        have hnd : decided op = false := by
          cases hdb : rt.DEBUG_LEGION with
          | false => simpa [shielded, hdb, hreq] using h
          | true =>
            by_cases hf : (run (perform rt req) op).fault = none
            · simp [decided, hsum.2.2.1 hf hdb]
            · exfalso
              apply hsame
              cases req with
              | request_memoize flag =>
                have h' := set_memoize_apply rt flag { op := op, log := [] }
                by_cases h1 : rt.DEBUG_LEGION = true ∧ op.memo_state ≠ MemoState.NO_MEMO
                · rw [if_pos h1] at h'
                  simp [run, perform, h']
                · rw [if_neg h1] at h'
                  exfalso
                  apply hf
                  by_cases h2 : flag = true ∧ rt.no_tracing = false ∧
                      rt.no_physical_tracing = false
                  · rw [if_pos h2] at h'
                    simp [run, perform, h']
                  · rw [if_neg h2] at h'
                    simp [run, perform, h']
              | decide_memoization mapper_id =>
                have h' := invoke_memoize_operation_apply rt mapper_id { op := op, log := [] }
                by_cases h0 : op.trace = none ∧ (policy_response rt mapper_id op).memoize = true
                · rw [if_pos h0] at h'
                  simp [run, perform, h', Sys.logged]
                · rw [if_neg h0, set_memoize_apply] at h'
                  by_cases h1 : rt.DEBUG_LEGION = true ∧ op.memo_state ≠ MemoState.NO_MEMO
                  · simp only [Sys.logged] at h'
                    rw [if_pos h1] at h'
                    simp [run, perform, h']
                  · simp only [Sys.logged] at h'
                    rw [if_neg h1] at h'
                    exfalso
                    apply hf
                    by_cases h2 : (policy_response rt mapper_id op).memoize = true ∧
                        rt.no_tracing = false ∧ rt.no_physical_tracing = false
                    · rw [if_pos h2] at h'
                      simp [run, perform, h']
                    · rw [if_neg h2] at h'
                      simp [run, perform, h']
              | enter_analysis => simp [Request.sets_memoize] at hreq
              | trace_local_id => simp [Request.sets_memoize] at hreq
        revert hnd
        simp only [decided]
        generalize op.memo_state = a
        cases a <;> simp [advances]
  | false =>
    cases req with
    | request_memoize flag => simp [Request.sets_memoize] at hreq
    | decide_memoization mapper_id => simp [Request.sets_memoize] at hreq
    | trace_local_id =>
      rw [run_get_trace_local_id]
      cases op.memo_state <;> rfl
    | enter_analysis =>
      have hsum := analysis_summary rt op
      by_cases hf : (run (execute_dependence_analysis rt) op).fault = none
      · rcases hsum.1 hf with ⟨heq, _⟩ | ⟨hold, hdec, _⟩
        · show advances op.memo_state (run (execute_dependence_analysis rt) op).op.memo_state = true
          rw [heq]
          cases op.memo_state <;> rfl
        · show advances op.memo_state (run (execute_dependence_analysis rt) op).op.memo_state = true
          rw [hold]
          revert hdec
          simp only [decided]
          generalize (run (execute_dependence_analysis rt) op).op.memo_state = b
          cases b <;> simp [advances]
      · show advances op.memo_state (run (execute_dependence_analysis rt) op).op.memo_state = true
        rw [hsum.2.1 hf]
        cases op.memo_state <;> rfl

/-- A shielded call that returns keeps the link between `tpl` and `memo_state`:
`tpl` is set exactly when the state is `RECORD` or `REPLAY`. -/
theorem shielded_step_keeps_tpl_link (rt : Runtime) (op : MemoizableOp) (req : Request)
    (hinv : op.tpl.isSome = decided op)
    (h : shielded rt op req = true) (hf : (run (perform rt req) op).fault = none) :
    (run (perform rt req) op).op.tpl.isSome = decided (run (perform rt req) op).op := by
  cases hreq : req.sets_memoize with
  | true =>
    have hsum := memoize_request_summary rt op req hreq
    have hnd : decided op = false := by
      cases hdb : rt.DEBUG_LEGION with
      | false => simpa [shielded, hdb, hreq] using h
      | true => simp [decided, hsum.2.2.1 hf hdb]
    rw [hsum.1, hinv, hnd]
    rcases hsum.2.2.2.1 with heq | hnew
    · simp only [decided, heq] at hnd ⊢
      exact hnd.symm
    · simp [decided, hnew]
  | false =>
    cases req with
    | request_memoize flag => simp [Request.sets_memoize] at hreq
    | decide_memoization mapper_id => simp [Request.sets_memoize] at hreq
    | trace_local_id =>
      rw [run_get_trace_local_id]
      exact hinv
    | enter_analysis =>
      rcases (analysis_summary rt op).1 hf with ⟨heq, _⟩ | ⟨_, hdec, htpl⟩
      · show (run (execute_dependence_analysis rt) op).op.tpl.isSome
          = decided (run (execute_dependence_analysis rt) op).op
        rw [heq]
        exact hinv
      · show (run (execute_dependence_analysis rt) op).op.tpl.isSome
          = decided (run (execute_dependence_analysis rt) op).op
        rw [hdec, htpl]

/-- A call through an exposed entry point that returns keeps the link between
`MEMO_REQ` and the trace pointer: an operation in `MEMO_REQ` has a trace. -/
theorem exposed_step_keeps_trace_link (rt : Runtime) (op : MemoizableOp) (req : Request)
    (hinv : op.memo_state = MemoState.MEMO_REQ → op.trace.isSome = true)
    (h : req.exposed = true) (hf : (run (perform rt req) op).fault = none) :
    (run (perform rt req) op).op.memo_state = MemoState.MEMO_REQ →
      (run (perform rt req) op).op.trace.isSome = true := by
  intro hnew
  cases req with
  | request_memoize flag => simp [Request.exposed] at h
  | decide_memoization mapper_id =>
    have hsum := memoize_request_summary rt op (Request.decide_memoization mapper_id) rfl
    rw [hsum.2.1]
    by_cases hsame : (run (perform rt (Request.decide_memoization mapper_id)) op).op.memo_state
        = op.memo_state
    · exact hinv (hsame ▸ hnew)
    · exact hsum.2.2.2.2 hsame rfl
  | trace_local_id =>
    rw [run_get_trace_local_id] at hnew ⊢
    exact hinv hnew
  | enter_analysis =>
    have hsum := analysis_summary rt op
    have hnew' : (run (execute_dependence_analysis rt) op).op.memo_state = MemoState.MEMO_REQ :=
      hnew
    show (run (execute_dependence_analysis rt) op).op.trace.isSome = true
    rw [hsum.2.2]
    rcases hsum.1 hf with ⟨heq, _⟩ | ⟨_, hdec, _⟩
    · rw [heq] at hnew'
      exact hinv hnew'
    · simp [decided, hnew'] at hdec

/-- In a build without `DEBUG_LEGION`, a memoization request that is not granted
leaves every field of the operation as it was. -/
theorem ungranted_request_changes_nothing (rt : Runtime) (op : MemoizableOp) (req : Request)
    (hreq : req.sets_memoize = true) (hdb : rt.DEBUG_LEGION = false)
    (hg : granted rt op req = false) :
    (run (perform rt req) op).op = op := by
  cases req with
  | request_memoize flag =>
    have h := set_memoize_apply rt flag { op := op, log := [] }
    rw [if_neg (by simp [hdb])] at h
    have h2 : ¬ (flag = true ∧ rt.no_tracing = false ∧ rt.no_physical_tracing = false) := by
      intro hc
      simp [granted, hc.1, hc.2.1, hc.2.2] at hg
    rw [if_neg h2] at h
    simp [run, perform, h]
  | decide_memoization mapper_id =>
    have h := invoke_memoize_operation_apply rt mapper_id { op := op, log := [] }
    by_cases h0 : op.trace = none ∧ (policy_response rt mapper_id op).memoize = true
    · rw [if_pos h0] at h
      simp [run, perform, h, Sys.logged]
    · rw [if_neg h0, set_memoize_apply] at h
      simp only [Sys.logged] at h
      rw [if_neg (by simp [hdb])] at h
      have h2 : ¬ ((policy_response rt mapper_id op).memoize = true ∧ rt.no_tracing = false ∧
          rt.no_physical_tracing = false) := by
        intro hc
        have htr : op.trace ≠ none := fun hn => h0 ⟨hn, hc.1⟩
        simp [granted, hc.1, hc.2.1, hc.2.2, has_trace, Option.isSome_iff_ne_none, htr] at hg
      rw [if_neg h2] at h
      simp [run, perform, h]
  | enter_analysis => simp [Request.sets_memoize] at hreq
  | trace_local_id => simp [Request.sets_memoize] at hreq

/-- In a build without `DEBUG_LEGION`, a granted memoization request returns and
leaves `memo_state = MEMO_REQ`, whatever the state was. -/
theorem granted_request_sets_memo_req (rt : Runtime) (op : MemoizableOp) (req : Request)
    (hdb : rt.DEBUG_LEGION = false) (hg : granted rt op req = true) :
    (run (perform rt req) op).fault = none ∧
    (run (perform rt req) op).op.memo_state = MemoState.MEMO_REQ := by
  cases req with
  | request_memoize flag =>
    have h := set_memoize_apply rt flag { op := op, log := [] }
    rw [if_neg (by simp [hdb])] at h
    have h2 : flag = true ∧ rt.no_tracing = false ∧ rt.no_physical_tracing = false := by
      simpa [granted, and_assoc] using hg
    rw [if_pos h2] at h
    simp [run, perform, h]
  | decide_memoization mapper_id =>
    have hg2 : (policy_response rt mapper_id op).memoize = true ∧ has_trace op = true ∧
        rt.no_tracing = false ∧ rt.no_physical_tracing = false := by
      simpa [granted, and_assoc] using hg
    have h := invoke_memoize_operation_apply rt mapper_id { op := op, log := [] }
    have h0 : ¬ (op.trace = none ∧ (policy_response rt mapper_id op).memoize = true) := by
      intro hc
      simp [has_trace, hc.1] at hg2
    rw [if_neg h0, set_memoize_apply] at h
    simp only [Sys.logged] at h
    rw [if_neg (by simp [hdb]), if_pos ⟨hg2.1, hg2.2.2.1, hg2.2.2.2⟩] at h
    simp [run, perform, h]
  | enter_analysis => simp [granted] at hg
  | trace_local_id => simp [granted] at hg

/-- The assertion of line 69 at work: in a debug build, when the current template
is replaying but the trace is not in replay mode, the run stops at line 69 with
`memo_state` still `MEMO_REQ` and no registration made. -/
theorem replay_assertion_guards_trace_mode (rt : Runtime) (op : MemoizableOp) (t : LegionTrace)
    (pt : PhysicalTrace) (tpl : PhysicalTemplate)
    (hs : op.memo_state = MemoState.MEMO_REQ) (ht : op.trace = some t)
    (hpt : t.get_physical_trace = some pt) (hc : pt.get_current_template = some tpl)
    (hr : tpl.is_replaying = true)
    (hdb : rt.DEBUG_LEGION = true) (hmode : t.is_replaying = false) :
    (run (execute_dependence_analysis rt) op).fault = some (Fault.assertion_failed 69) ∧
    (run (execute_dependence_analysis rt) op).op.memo_state = MemoState.MEMO_REQ ∧
    (run (execute_dependence_analysis rt) op).registrations = [] := by
  simp only [LegionTrace.get_physical_trace, PhysicalTrace.get_current_template,
    PhysicalTemplate.is_replaying] at hpt hc hr
  simp [run, execute_dependence_analysis, execute_dependence_analysis_with, bind, Exec.bind, pure, Exec.pure, debug_assert, debug_assert_calling, getOp,
    modifyOp, emit, Sys.logged, deref_trace, deref_physical_trace, deref_tpl, hs, ht, hpt, hc, hr,
    hdb, LegionTrace.get_physical_trace, PhysicalTrace.get_current_template,
    PhysicalTemplate.is_replaying, Outcome.calls, Outcome.registrations,
    Call.registration, has_trace, has_physical_trace, trace_is_replaying, hmode]

/-- The assertion of line 80 at work: in a debug build, when the current template
is being recorded but the trace is not in record mode, the run stops at line 80 with
`memo_state` still `MEMO_REQ` and the normal analysis hook not called. -/
theorem record_assertion_guards_trace_mode (rt : Runtime) (op : MemoizableOp) (t : LegionTrace)
    (pt : PhysicalTrace) (tpl : PhysicalTemplate)
    (hs : op.memo_state = MemoState.MEMO_REQ) (ht : op.trace = some t)
    (hpt : t.get_physical_trace = some pt) (hc : pt.get_current_template = some tpl)
    (hr : tpl.is_replaying = false)
    (hdb : rt.DEBUG_LEGION = true) (hmode : t.is_recording = false) :
    (run (execute_dependence_analysis rt) op).fault = some (Fault.assertion_failed 80) ∧
    (run (execute_dependence_analysis rt) op).op.memo_state = MemoState.MEMO_REQ ∧
    (run (execute_dependence_analysis rt) op).times Call.OP_execute_dependence_analysis = 0 := by
  simp only [LegionTrace.get_physical_trace, PhysicalTrace.get_current_template,
    PhysicalTemplate.is_replaying] at hpt hc hr
  simp [run, execute_dependence_analysis, execute_dependence_analysis_with, bind, Exec.bind,
    pure, Exec.pure, debug_assert, debug_assert_calling, getOp,
    modifyOp, emit, Sys.logged, deref_trace, deref_physical_trace, deref_tpl, hs, ht, hpt, hc, hr,
    hdb, LegionTrace.get_physical_trace, PhysicalTrace.get_current_template,
    PhysicalTemplate.is_replaying, Outcome.calls, Outcome.times,
    has_trace, has_physical_trace, trace_is_recording, hmode]

/-- The assertions of lines 69 and 80 at work for any store: in a debug build, on an
operation in `MEMO_REQ` with a trace and a store, when the trace's mode does not
agree with the template consulted the run stops at one of the two assertions, with
`memo_state` still `MEMO_REQ` and neither analysis hook called. -/
theorem mode_disagreement_stops_analysis
    (start : PhysicalTrace → PhysicalTemplate × PhysicalTrace)
    (rt : Runtime) (op : MemoizableOp) (t : LegionTrace) (pt : PhysicalTrace)
    (hs : op.memo_state = MemoState.MEMO_REQ)
    (ht : op.trace = some t) (hpt : t.get_physical_trace = some pt)
    (hdb : rt.DEBUG_LEGION = true) (hmode : mode_agrees_with start t pt = false) :
    ((run (execute_dependence_analysis_with start rt) op).fault
        = some (Fault.assertion_failed 69) ∨
      (run (execute_dependence_analysis_with start rt) op).fault
        = some (Fault.assertion_failed 80)) ∧
    (run (execute_dependence_analysis_with start rt) op).op.memo_state = MemoState.MEMO_REQ ∧
    (run (execute_dependence_analysis_with start rt) op).times Call.replay_analysis = 0 ∧
    (run (execute_dependence_analysis_with start rt) op).times
      Call.OP_execute_dependence_analysis = 0 := by
  obtain ⟨i, g, tr, l, pr, tp, st⟩ := op
  simp only at hs ht
  subst ht
  subst hs
  obtain ⟨mode, ptr⟩ := t
  simp only [LegionTrace.get_physical_trace] at hpt
  subst hpt
  obtain ⟨dbg, nt, npt, fm⟩ := rt
  simp only at hdb
  subst hdb
  obtain ⟨cur, n⟩ := pt
  rcases cur with _ | ⟨k, rp⟩
  · rcases hst : start { current_template := none, next_template_id := n } with ⟨⟨k, rp⟩, pt2⟩
    cases mode <;> cases rp <;>
      simp [mode_agrees_with, hst, PhysicalTrace.get_current_template,
        PhysicalTemplate.is_replaying] at hmode <;>
      simp [run, execute_dependence_analysis_with, hst, bind, Exec.bind, pure, Exec.pure,
        debug_assert, debug_assert_calling, getOp,
        modifyOp, emit, Sys.logged, deref_trace, deref_physical_trace, deref_tpl, store_trace,
        LegionTrace.get_physical_trace, PhysicalTrace.get_current_template,
        PhysicalTemplate.is_replaying,
        LegionTrace.set_state_record, LegionTrace.is_recording, LegionTrace.is_replaying,
        has_trace, has_physical_trace, trace_is_recording, trace_is_replaying,
        Outcome.calls, Outcome.times]
  · cases mode <;> cases rp <;>
      simp [mode_agrees_with, LegionTrace.is_recording, LegionTrace.is_replaying,
        PhysicalTrace.get_current_template, PhysicalTemplate.is_replaying] at hmode <;>
      simp [run, execute_dependence_analysis_with, bind, Exec.bind, pure, Exec.pure,
        debug_assert, debug_assert_calling, getOp,
        modifyOp, emit, Sys.logged, deref_trace, deref_physical_trace, deref_tpl, store_trace,
        LegionTrace.get_physical_trace, PhysicalTrace.get_current_template,
        PhysicalTemplate.is_replaying,
        LegionTrace.set_state_record, LegionTrace.is_recording, LegionTrace.is_replaying,
        has_trace, has_physical_trace, trace_is_recording, trace_is_replaying,
        Outcome.calls, Outcome.times]

/-- The calls a memoization request or `get_trace_local_id` makes: none on the
trace or its store (the only call at all is the one on the mapper). -/
theorem non_analysis_call_log (rt : Runtime) (op : MemoizableOp) (req : Request)
    (hreq : req ≠ Request.enter_analysis) :
    (run (perform rt req) op).calls.filter Call.on_trace_or_store = [] := by
  cases req with
  | request_memoize flag =>
    have h := set_memoize_apply rt flag { op := op, log := [] }
    by_cases h1 : rt.DEBUG_LEGION = true ∧ op.memo_state ≠ MemoState.NO_MEMO
    · rw [if_pos h1] at h
      simp [run, perform, h, Outcome.calls]
    · rw [if_neg h1] at h
      by_cases h2 : flag = true ∧ rt.no_tracing = false ∧ rt.no_physical_tracing = false
      · rw [if_pos h2] at h
        simp [run, perform, h, Outcome.calls]
      · rw [if_neg h2] at h
        simp [run, perform, h, Outcome.calls]
  | decide_memoization mapper_id =>
    have h := invoke_memoize_operation_apply rt mapper_id { op := op, log := [] }
    by_cases h0 : op.trace = none ∧ (policy_response rt mapper_id op).memoize = true
    · rw [if_pos h0] at h
      simp [run, perform, h, Sys.logged, Outcome.calls, Call.on_trace_or_store]
    · rw [if_neg h0, set_memoize_apply] at h
      simp only [Sys.logged] at h
      by_cases h1 : rt.DEBUG_LEGION = true ∧ op.memo_state ≠ MemoState.NO_MEMO
      · rw [if_pos h1] at h
        simp [run, perform, h, Outcome.calls, Call.on_trace_or_store]
      · rw [if_neg h1] at h
        by_cases h2 : (policy_response rt mapper_id op).memoize = true ∧
            rt.no_tracing = false ∧ rt.no_physical_tracing = false
        · rw [if_pos h2] at h
          simp [run, perform, h, Outcome.calls, Call.on_trace_or_store]
        · rw [if_neg h2] at h
          simp [run, perform, h, Outcome.calls, Call.on_trace_or_store]
  | enter_analysis => exact absurd rfl hreq
  | trace_local_id =>
    rw [run_get_trace_local_id]
    rfl

/-- A memoization request or `get_trace_local_id` leaves `tpl` and the trace
pointer as they were. -/
theorem non_analysis_call_frame (rt : Runtime) (op : MemoizableOp) (req : Request)
    (hreq : req ≠ Request.enter_analysis) :
    (run (perform rt req) op).op.tpl = op.tpl ∧
    (run (perform rt req) op).op.trace = op.trace := by
  cases req with
  | request_memoize flag =>
    have h := memoize_request_summary rt op (Request.request_memoize flag) rfl
    exact ⟨h.1, h.2.1⟩
  | decide_memoization mapper_id =>
    have h := memoize_request_summary rt op (Request.decide_memoization mapper_id) rfl
    exact ⟨h.1, h.2.1⟩
  | enter_analysis => exact absurd rfl hreq
  | trace_local_id =>
    rw [run_get_trace_local_id]
    exact ⟨rfl, rfl⟩

/-- What `execute_dependence_analysis` does to `tpl`: it changes it only from
`MEMO_REQ`. -/
theorem analysis_keeps_tpl_outside_memo_req (rt : Runtime) (op : MemoizableOp)
    (hs : op.memo_state ≠ MemoState.MEMO_REQ) :
    (run (execute_dependence_analysis rt) op).op.tpl = op.tpl := by
  cases hst : op.memo_state with
  | NO_MEMO => rw [execute_from_no_memo rt op hst]
  | MEMO_REQ => exact absurd hst hs
  | RECORD =>
    rw [execute_when_decided rt op (by simp [decided, hst])]
    cases rt.DEBUG_LEGION <;> rfl
  | REPLAY =>
    rw [execute_when_decided rt op (by simp [decided, hst])]
    cases rt.DEBUG_LEGION <;> rfl

/-! ## `execute_dependence_analysis` on its three paths -/

/-- C1 (as amended): an operation in `MEMO_REQ` whose trace's current template
reports `is_replaying() = true` and, in a build with `DEBUG_LEGION`, whose trace
itself reports `is_replaying()` (the assertion of line 69) leaves
`execute_dependence_analysis` in `REPLAY` with `tpl` that template; the run
returns, registers the operation as physical-only exactly once,
with its own identity and generation, calls `resolve_speculation` exactly once and
the replay hook exactly once, and never calls the normal analysis hook. -/
theorem replaying_template_gives_replay (rt : Runtime) (op : MemoizableOp) (t : LegionTrace)
    (pt : PhysicalTrace) (tpl : PhysicalTemplate)
    (hs : op.memo_state = MemoState.MEMO_REQ) (ht : op.trace = some t)
    (hpt : t.get_physical_trace = some pt) (hc : pt.get_current_template = some tpl)
    (hr : tpl.is_replaying = true)
    (hd : rt.DEBUG_LEGION = true → t.is_replaying = true) :
    (run (execute_dependence_analysis rt) op).fault = none ∧
    (run (execute_dependence_analysis rt) op).op.memo_state = MemoState.REPLAY ∧
    (run (execute_dependence_analysis rt) op).op.tpl = some tpl ∧
    (run (execute_dependence_analysis rt) op).registrations = [(op.unique_op_id, op.gen)] ∧
    (run (execute_dependence_analysis rt) op).times Call.resolve_speculation = 1 ∧
    (run (execute_dependence_analysis rt) op).times Call.replay_analysis = 1 ∧
    (run (execute_dependence_analysis rt) op).times Call.OP_execute_dependence_analysis = 0 := by
  simp only [LegionTrace.get_physical_trace, PhysicalTrace.get_current_template,
    PhysicalTemplate.is_replaying] at hpt hc hr
  cases hdb : rt.DEBUG_LEGION
  · simp [run, execute_dependence_analysis, execute_dependence_analysis_with, bind, Exec.bind, pure, Exec.pure, debug_assert, debug_assert_calling, getOp,
      modifyOp, emit, Sys.logged, deref_trace, deref_physical_trace, deref_tpl, hs, ht, hpt, hc, hr, hdb,
      LegionTrace.get_physical_trace, PhysicalTrace.get_current_template,
      PhysicalTemplate.is_replaying, Outcome.calls, Outcome.times, Outcome.registrations,
      Call.registration]
  · have hrep := hd hdb
    simp [run, execute_dependence_analysis, execute_dependence_analysis_with, bind, Exec.bind, pure, Exec.pure, debug_assert, debug_assert_calling, getOp,
      modifyOp, emit, Sys.logged, deref_trace, deref_physical_trace, deref_tpl, hs, ht, hpt, hc, hr, hdb,
      LegionTrace.get_physical_trace, PhysicalTrace.get_current_template,
      PhysicalTemplate.is_replaying, Outcome.calls, Outcome.times, Outcome.registrations,
      Call.registration, has_trace, has_physical_trace, trace_is_replaying, hrep]

/-- The replay path at a concrete operation of a debug build. -/
theorem replaying_template_gives_replay_witness :
    (sample_op (some replaying_trace) none MemoState.MEMO_REQ).memo_state = MemoState.MEMO_REQ ∧
    (run (execute_dependence_analysis debug_runtime)
      (sample_op (some replaying_trace) none MemoState.MEMO_REQ)).op.memo_state = MemoState.REPLAY ∧
    (run (execute_dependence_analysis debug_runtime)
      (sample_op (some replaying_trace) none MemoState.MEMO_REQ)).registrations = [(7, 2)] :=
  have h := replaying_template_gives_replay debug_runtime
    (sample_op (some replaying_trace) none MemoState.MEMO_REQ) replaying_trace
    { current_template := some { id := 3, replaying := true }, next_template_id := 4 }
    { id := 3, replaying := true } rfl rfl rfl rfl rfl (fun _ => rfl)
  ⟨rfl, h.2.1, h.2.2.2.1⟩

/-- C1 as stated fails in a build with `DEBUG_LEGION`: on an operation in `MEMO_REQ`
whose trace's current template is replaying while the trace itself is not in replay
mode, the run stops at the assertion of line 69: `memo_state` is still `MEMO_REQ`,
nothing was registered, `resolve_speculation` and the replay hook were not called. -/
theorem replay_aborts_when_trace_not_replaying :
    (sample_op (some unready_replay_trace) none MemoState.MEMO_REQ).memo_state
      = MemoState.MEMO_REQ ∧
    unready_replay_trace.get_physical_trace
      = some { current_template := some { id := 3, replaying := true },
               next_template_id := 4 } ∧
    (run (execute_dependence_analysis debug_runtime)
      (sample_op (some unready_replay_trace) none MemoState.MEMO_REQ)).fault
      = some (Fault.assertion_failed 69) ∧
    (run (execute_dependence_analysis debug_runtime)
      (sample_op (some unready_replay_trace) none MemoState.MEMO_REQ)).op.memo_state
      = MemoState.MEMO_REQ ∧
    (run (execute_dependence_analysis debug_runtime)
      (sample_op (some unready_replay_trace) none MemoState.MEMO_REQ)).registrations = [] ∧
    (run (execute_dependence_analysis debug_runtime)
      (sample_op (some unready_replay_trace) none MemoState.MEMO_REQ)).times
        Call.resolve_speculation = 0 ∧
    (run (execute_dependence_analysis debug_runtime)
      (sample_op (some unready_replay_trace) none MemoState.MEMO_REQ)).times
        Call.replay_analysis = 0 := by
  refine ⟨rfl, rfl, rfl, rfl, rfl, ?_, ?_⟩ <;> decide

/-- C2: an operation in `MEMO_REQ` whose trace's store has no current template
leaves `execute_dependence_analysis` in `RECORD`: the run returns, a new template is
started exactly once and becomes both `tpl` and the store's current template, the
normal analysis hook is called exactly once and the replay hook never. -/
theorem no_current_template_gives_record (rt : Runtime) (op : MemoizableOp) (t : LegionTrace)
    (pt : PhysicalTrace)
    (hs : op.memo_state = MemoState.MEMO_REQ) (ht : op.trace = some t)
    (hpt : t.get_physical_trace = some pt) (hc : pt.get_current_template = none) :
    (run (execute_dependence_analysis rt) op).fault = none ∧
    (run (execute_dependence_analysis rt) op).op.memo_state = MemoState.RECORD ∧
    (run (execute_dependence_analysis rt) op).times Call.start_new_template = 1 ∧
    (run (execute_dependence_analysis rt) op).op.tpl = some pt.start_new_template.1 ∧
    (run (execute_dependence_analysis rt) op).op.trace =
      some { t.set_state_record with physical_trace := some pt.start_new_template.2 } ∧
    pt.start_new_template.2.get_current_template = some pt.start_new_template.1 ∧
    (run (execute_dependence_analysis rt) op).times Call.OP_execute_dependence_analysis = 1 ∧
    (run (execute_dependence_analysis rt) op).times Call.replay_analysis = 0 := by
  simp only [LegionTrace.get_physical_trace, PhysicalTrace.get_current_template] at hpt hc
  cases hdb : rt.DEBUG_LEGION <;>
  simp [run, execute_dependence_analysis, execute_dependence_analysis_with, bind, Exec.bind, pure, Exec.pure, debug_assert, debug_assert_calling, getOp,
      modifyOp, emit, Sys.logged, deref_trace, deref_physical_trace, deref_tpl, store_trace, hs, ht, hpt, hc, hdb,
      LegionTrace.get_physical_trace, PhysicalTrace.get_current_template,
      PhysicalTemplate.is_replaying, PhysicalTrace.start_new_template,
      LegionTrace.set_state_record, LegionTrace.is_recording, Outcome.calls, Outcome.times,
      has_trace, has_physical_trace, trace_is_recording]

/-- The record path at a concrete operation of a debug build. -/
theorem no_current_template_gives_record_witness :
    (sample_op (some fresh_trace) none MemoState.MEMO_REQ).memo_state = MemoState.MEMO_REQ ∧
    (run (execute_dependence_analysis debug_runtime)
      (sample_op (some fresh_trace) none MemoState.MEMO_REQ)).op.memo_state = MemoState.RECORD ∧
    (run (execute_dependence_analysis debug_runtime)
      (sample_op (some fresh_trace) none MemoState.MEMO_REQ)).op.tpl
        = some { id := 0, replaying := false } :=
  have h := no_current_template_gives_record debug_runtime
    (sample_op (some fresh_trace) none MemoState.MEMO_REQ) fresh_trace
    { current_template := none, next_template_id := 0 } rfl rfl rfl rfl
  ⟨rfl, h.2.1, h.2.2.2.1⟩

/-- C3: on an operation in `NO_MEMO`, `execute_dependence_analysis` returns after
exactly one call, the normal analysis hook, and leaves every field of the operation
(`memo_state`, `tpl`, the trace and its store) as it was. -/
theorem no_memo_only_delegates (rt : Runtime) (op : MemoizableOp)
    (hs : op.memo_state = MemoState.NO_MEMO) :
    (run (execute_dependence_analysis rt) op).fault = none ∧
    (run (execute_dependence_analysis rt) op).calls = [Call.OP_execute_dependence_analysis] ∧
    (run (execute_dependence_analysis rt) op).op = op ∧
    (run (execute_dependence_analysis rt) op).op.memo_state = MemoState.NO_MEMO ∧
    (run (execute_dependence_analysis rt) op).op.tpl = op.tpl := by
  cases hdb : rt.DEBUG_LEGION <;>
  simp [run, execute_dependence_analysis, execute_dependence_analysis_with, bind, Exec.bind, debug_assert, debug_assert_calling, getOp, emit, Sys.logged, hs, hdb,
      Outcome.calls]

/-- The `NO_MEMO` path at a concrete traced operation of a debug build. -/
theorem no_memo_only_delegates_witness :
    (sample_op (some fresh_trace) none MemoState.NO_MEMO).memo_state = MemoState.NO_MEMO ∧
    (run (execute_dependence_analysis debug_runtime)
      (sample_op (some fresh_trace) none MemoState.NO_MEMO)).calls
        = [Call.OP_execute_dependence_analysis] :=
  ⟨rfl, (no_memo_only_delegates debug_runtime
    (sample_op (some fresh_trace) none MemoState.NO_MEMO) rfl).2.1⟩


/-! ## `invoke_memoize_operation` and `set_memoize` -/

/-- C4: on an untraced operation (`OP::trace` is `NULL`) with a mapper whose answer
says `memoize = true`, `invoke_memoize_operation` stops with the error
`ERROR_INVALID_PHYSICAL_TRACING` and leaves every field of the operation, in
particular `memo_state` and `tpl`, exactly as it was. -/
theorem untraced_memoize_is_rejected (rt : Runtime) (mapper_id : Nat) (op : MemoizableOp)
    (ht : op.trace = none) (hm : (policy_response rt mapper_id op).memoize = true) :
    (run (invoke_memoize_operation rt mapper_id) op).fault
      = some (Fault.legion_error ErrorCode.ERROR_INVALID_PHYSICAL_TRACING) ∧
    (run (invoke_memoize_operation rt mapper_id) op).op = op ∧
    (run (invoke_memoize_operation rt mapper_id) op).op.memo_state = op.memo_state ∧
    (run (invoke_memoize_operation rt mapper_id) op).op.tpl = op.tpl := by
  have h := invoke_memoize_operation_apply rt mapper_id { op := op, log := [] }
  rw [if_pos ⟨ht, hm⟩] at h
  simp [run, h, Sys.logged]

/-- The rejection at a concrete untraced operation whose mapper asks for
memoization. -/
theorem untraced_memoize_is_rejected_witness :
    (sample_op none none MemoState.NO_MEMO).trace = none ∧
    (policy_response debug_runtime 0 (sample_op none none MemoState.NO_MEMO)).memoize = true ∧
    (run (invoke_memoize_operation debug_runtime 0) (sample_op none none MemoState.NO_MEMO)).fault
      = some (Fault.legion_error ErrorCode.ERROR_INVALID_PHYSICAL_TRACING) ∧
    (run (invoke_memoize_operation debug_runtime 0) (sample_op none none MemoState.NO_MEMO)).op
      = sample_op none none MemoState.NO_MEMO :=
  have h := untraced_memoize_is_rejected debug_runtime 0 (sample_op none none MemoState.NO_MEMO)
    rfl rfl
  ⟨rfl, rfl, h.1, h.2.1⟩

/-- C5: on an operation in `NO_MEMO`, `set_memoize flag` returns without a fault
and without calling any collaborator; it leaves `memo_state = MEMO_REQ` exactly when
`flag` is true and both `no_tracing` and `no_physical_tracing` are false, and
`NO_MEMO` otherwise; no other field changes.  In particular a true flag with
`no_tracing` set leaves `NO_MEMO`, and a false flag changes nothing. -/
theorem set_memoize_from_no_memo (rt : Runtime) (flag : Bool) (op : MemoizableOp)
    (hs : op.memo_state = MemoState.NO_MEMO) :
    (run (set_memoize rt flag) op).fault = none ∧
    (run (set_memoize rt flag) op).log = [] ∧
    ((run (set_memoize rt flag) op).op.memo_state = MemoState.MEMO_REQ ↔
      (flag = true ∧ rt.no_tracing = false ∧ rt.no_physical_tracing = false)) ∧
    (¬ (flag = true ∧ rt.no_tracing = false ∧ rt.no_physical_tracing = false) →
      (run (set_memoize rt flag) op).op.memo_state = MemoState.NO_MEMO) ∧
    (rt.no_tracing = true → (run (set_memoize rt true) op).op.memo_state = MemoState.NO_MEMO) ∧
    (flag = false → (run (set_memoize rt flag) op).op = op) ∧
    (run (set_memoize rt flag) op).op
      = { op with memo_state := (run (set_memoize rt flag) op).op.memo_state } := by
  obtain ⟨i, g, tr, l, pr, tp, st⟩ := op
  simp only at hs
  subst hs
  have h := fun b => set_memoize_apply rt b
    { op := ⟨i, g, tr, l, pr, tp, MemoState.NO_MEMO⟩, log := [] }
  simp only [ne_eq, not_true_eq_false, and_false, if_false] at h
  cases flag <;> cases hnt : rt.no_tracing <;> cases hnp : rt.no_physical_tracing <;>
    simp [run, h, hnt, hnp]

/-- A granted request and a request dropped by a kill switch, at concrete
operations. -/
theorem set_memoize_from_no_memo_witness :
    (sample_op none none MemoState.NO_MEMO).memo_state = MemoState.NO_MEMO ∧
    (run (set_memoize debug_runtime true) (sample_op none none MemoState.NO_MEMO)).op.memo_state
      = MemoState.MEMO_REQ ∧
    (run (set_memoize { debug_runtime with no_tracing := true } true)
      (sample_op none none MemoState.NO_MEMO)).op.memo_state = MemoState.NO_MEMO :=
  ⟨rfl,
   (set_memoize_from_no_memo debug_runtime true (sample_op none none MemoState.NO_MEMO) rfl).2.2.1.mpr
     ⟨rfl, rfl, rfl⟩,
   (set_memoize_from_no_memo { debug_runtime with no_tracing := true } true
     (sample_op none none MemoState.NO_MEMO) rfl).2.2.2.2.1 rfl⟩

/-- C6: on an operation in `NO_MEMO`, unless the operation is untraced and the
mapper's answer says memoize, `invoke_memoize_operation` returns without a fault and
ends in exactly the state `set_memoize` produces for the mapper's answer:
`MEMO_REQ` when the answer says memoize and both kill switches are off, `NO_MEMO`
otherwise. -/
theorem decide_memoization_forwards (rt : Runtime) (mapper_id : Nat) (op : MemoizableOp)
    (hs : op.memo_state = MemoState.NO_MEMO)
    (hok : ¬ (op.trace = none ∧ (policy_response rt mapper_id op).memoize = true)) :
    (run (invoke_memoize_operation rt mapper_id) op).fault = none ∧
    (run (invoke_memoize_operation rt mapper_id) op).op
      = (run (set_memoize rt (policy_response rt mapper_id op).memoize) op).op ∧
    ((run (invoke_memoize_operation rt mapper_id) op).op.memo_state = MemoState.MEMO_REQ ↔
      ((policy_response rt mapper_id op).memoize = true ∧ rt.no_tracing = false ∧
        rt.no_physical_tracing = false)) ∧
    (¬ ((policy_response rt mapper_id op).memoize = true ∧ rt.no_tracing = false ∧
        rt.no_physical_tracing = false) →
      (run (invoke_memoize_operation rt mapper_id) op).op.memo_state = MemoState.NO_MEMO) := by
  obtain ⟨i, g, tr, l, pr, tp, st⟩ := op
  simp only at hs hok
  subst hs
  have h := invoke_memoize_operation_apply rt mapper_id
    { op := ⟨i, g, tr, l, pr, tp, MemoState.NO_MEMO⟩, log := [] }
  rw [if_neg hok] at h
  have h2 := fun b s => set_memoize_apply rt b s
  cases hm : (policy_response rt mapper_id ⟨i, g, tr, l, pr, tp, MemoState.NO_MEMO⟩).memoize <;>
    cases hnt : rt.no_tracing <;> cases hnp : rt.no_physical_tracing <;>
    simp [run, h, h2, hm, hnt, hnp, Sys.logged]

/-- A traced operation whose mapper asks for memoization, with both kill switches
off. -/
theorem decide_memoization_forwards_witness :
    (sample_op (some fresh_trace) none MemoState.NO_MEMO).memo_state = MemoState.NO_MEMO ∧
    (run (invoke_memoize_operation debug_runtime 0)
      (sample_op (some fresh_trace) none MemoState.NO_MEMO)).fault = none ∧
    (run (invoke_memoize_operation debug_runtime 0)
      (sample_op (some fresh_trace) none MemoState.NO_MEMO)).op.memo_state = MemoState.MEMO_REQ :=
  have h := decide_memoization_forwards debug_runtime 0
    (sample_op (some fresh_trace) none MemoState.NO_MEMO) rfl (by decide)
  ⟨rfl, h.1, h.2.2.1.mpr ⟨rfl, rfl, rfl⟩⟩

/-! ## The state machine across calls -/

/-- C7 (as amended): a single call of `request_memoize`, `decide_memoization`,
`enter_analysis` or `trace_local_id`, in any build and from any state, leaves
`memo_state` unchanged or moves it along `NO_MEMO -> MEMO_REQ`,
`MEMO_REQ -> RECORD` or `MEMO_REQ -> REPLAY`, and so never moves it back to an
earlier state, with one exception: in a build without `DEBUG_LEGION`, a granted
memoization request (`request_memoize(true)`, or `decide_memoization` on a traced
operation whose mapper answers memoize, both kill switches being off) made on an
operation already in `RECORD` or `REPLAY` returns and moves `memo_state` back to
`MEMO_REQ`.  No call at all moves `RECORD` to `REPLAY` or `REPLAY` to `RECORD`. -/
theorem call_advances_unless_unchecked_grant (rt : Runtime) (op : MemoizableOp)
    (req : Request) :
    (regressing rt op req = false →
      advances op.memo_state (run (perform rt req) op).op.memo_state = true ∧
      op.memo_state.rank ≤ (run (perform rt req) op).op.memo_state.rank) ∧
    (regressing rt op req = true →
      (run (perform rt req) op).fault = none ∧
      (run (perform rt req) op).op.memo_state = MemoState.MEMO_REQ ∧
      advances op.memo_state (run (perform rt req) op).op.memo_state = false) ∧
    ¬ (op.memo_state = MemoState.RECORD ∧
        (run (perform rt req) op).op.memo_state = MemoState.REPLAY) ∧
    ¬ (op.memo_state = MemoState.REPLAY ∧
        (run (perform rt req) op).op.memo_state = MemoState.RECORD) := by
  have hgood : regressing rt op req = false →
      advances op.memo_state (run (perform rt req) op).op.memo_state = true := by
    intro hreg
    cases hsh : shielded rt op req with
    | true => exact shielded_step rt op req hsh
    | false =>
      have hdb : rt.DEBUG_LEGION = false := by
        cases h : rt.DEBUG_LEGION with
        | false => rfl
        | true => simp [shielded, h] at hsh
      have hsm : req.sets_memoize = true := by
        cases h : req.sets_memoize with
        | true => rfl
        | false => simp [shielded, h] at hsh
      have hdec : decided op = true := by
        cases h : decided op with
        | true => rfl
        | false => simp [shielded, h] at hsh
      have hg : granted rt op req = false := by
        cases h : granted rt op req with
        | false => rfl
        | true => simp [regressing, hdb, hdec, h] at hreg
      rw [ungranted_request_changes_nothing rt op req hsm hdb hg]
      cases op.memo_state <;> rfl
  have hbad : regressing rt op req = true →
      (run (perform rt req) op).fault = none ∧
      (run (perform rt req) op).op.memo_state = MemoState.MEMO_REQ ∧
      decided op = true := by
    intro hreg
    have hall : rt.DEBUG_LEGION = false ∧ decided op = true ∧ granted rt op req = true := by
      simpa [regressing, and_assoc] using hreg
    have h := granted_request_sets_memo_req rt op req hall.1 hall.2.2
    exact ⟨h.1, h.2, hall.2.1⟩
  refine ⟨fun hreg => ⟨hgood hreg, (advances_facts _ _ (hgood hreg)).2.2⟩, ?_, ?_, ?_⟩
  · intro hreg
    obtain ⟨h1, h2, h3⟩ := hbad hreg
    refine ⟨h1, h2, ?_⟩
    rw [h2]
    revert h3
    simp only [decided]
    generalize op.memo_state = a
    cases a <;> simp [advances]
  · cases hreg : regressing rt op req with
    | false => exact (advances_facts _ _ (hgood hreg)).1
    | true =>
      intro hc
      rw [(hbad hreg).2.1] at hc
      exact absurd hc.2 (by decide)
  · cases hreg : regressing rt op req with
    | false => exact (advances_facts _ _ (hgood hreg)).2.1
    | true =>
      intro hc
      rw [(hbad hreg).2.1] at hc
      exact absurd hc.2 (by decide)

/-- Two calls on the operation in `RECORD` of a build without `DEBUG_LEGION`: a
request with a false flag is no exception and leaves `RECORD`; a request with a true
flag is the exception and gives `MEMO_REQ`. -/
theorem call_advances_unless_unchecked_grant_witness :
    regressing release_runtime (recorded_op release_runtime) (Request.request_memoize false)
      = false ∧
    advances (recorded_op release_runtime).memo_state
      (run (perform release_runtime (Request.request_memoize false))
        (recorded_op release_runtime)).op.memo_state = true ∧
    regressing release_runtime (recorded_op release_runtime) (Request.request_memoize true)
      = true ∧
    (run (perform release_runtime (Request.request_memoize true))
      (recorded_op release_runtime)).op.memo_state = MemoState.MEMO_REQ :=
  ⟨rfl,
   ((call_advances_unless_unchecked_grant release_runtime (recorded_op release_runtime)
      (Request.request_memoize false)).1 rfl).1,
   rfl,
   ((call_advances_unless_unchecked_grant release_runtime (recorded_op release_runtime)
      (Request.request_memoize true)).2.1 rfl).2.1⟩

/-- C7 as stated fails in a build without `DEBUG_LEGION`: on the operation that went
through initialisation, a granted request and its dependence analysis, and so is in
`RECORD`, a second `request_memoize(true)` returns and moves `memo_state` back to
`MEMO_REQ`, which is not a legal move. -/
theorem unchecked_request_regresses :
    (recorded_op release_runtime).memo_state = MemoState.RECORD ∧
    (run (perform release_runtime (Request.request_memoize true))
      (recorded_op release_runtime)).fault = none ∧
    (run (perform release_runtime (Request.request_memoize true))
      (recorded_op release_runtime)).op.memo_state = MemoState.MEMO_REQ ∧
    advances MemoState.RECORD MemoState.MEMO_REQ = false ∧
    ¬ (MemoState.RECORD.rank ≤ MemoState.MEMO_REQ.rank) := by
  refine ⟨rfl, rfl, rfl, rfl, ?_⟩
  decide

/-- C8 (as amended): in every state of an operation reachable from initialisation
by shielded calls of `decide_memoization`, `request_memoize`, `enter_analysis` and
`trace_local_id` (calls made in a build with `DEBUG_LEGION`, or no memoization
request made on an operation already in `RECORD` or `REPLAY`), `tpl` is present if
and only if `memo_state` is `RECORD` or `REPLAY`. -/
theorem tpl_present_iff_decided (rt : Runtime) (op : MemoizableOp)
    (h : Reachable rt (shielded rt) op) :
    op.tpl ≠ none ↔ (op.memo_state = MemoState.RECORD ∨ op.memo_state = MemoState.REPLAY) := by
  have key : op.tpl.isSome = decided op := by
    induction h with
    | init op0 => rfl
    | call op req _ hall hf ih => exact shielded_step_keeps_tpl_link rt op req ih hall hf
    | env op t _ ih => exact ih
  rw [← Option.isSome_iff_ne_none, key]
  simp [decided]

/-- The link at a concrete reachable state of a build without `DEBUG_LEGION`: the
operation that was initialised, requested and analysed holds a template and is in
`RECORD`. -/
theorem tpl_present_iff_decided_witness :
    Reachable release_runtime (shielded release_runtime) (recorded_op release_runtime) ∧
    ((recorded_op release_runtime).tpl ≠ none ↔
      ((recorded_op release_runtime).memo_state = MemoState.RECORD ∨
        (recorded_op release_runtime).memo_state = MemoState.REPLAY)) :=
  have hr : Reachable release_runtime (shielded release_runtime) (recorded_op release_runtime) :=
    Reachable.call _ Request.enter_analysis
      (Reachable.call _ (Request.request_memoize true) (Reachable.init _) rfl rfl) rfl rfl
  ⟨hr, tpl_present_iff_decided release_runtime (recorded_op release_runtime) hr⟩

/-- C8 as stated fails in a build without `DEBUG_LEGION`: initialisation, a granted
request, the dependence analysis and a second `request_memoize(true)` all return,
and reach a state in `MEMO_REQ` whose `tpl` is present. -/
theorem unchecked_request_keeps_tpl :
    Reachable release_runtime (fun _ _ => true)
      (run (perform release_runtime (Request.request_memoize true))
        (recorded_op release_runtime)).op ∧
    (run (perform release_runtime (Request.request_memoize true))
      (recorded_op release_runtime)).op.tpl = some { id := 0, replaying := false } ∧
    (run (perform release_runtime (Request.request_memoize true))
      (recorded_op release_runtime)).op.memo_state = MemoState.MEMO_REQ :=
  ⟨Reachable.call _ (Request.request_memoize true)
    (Reachable.call _ Request.enter_analysis
      (Reachable.call _ (Request.request_memoize true) (Reachable.init _) rfl rfl) rfl rfl)
    rfl rfl, rfl, rfl⟩

/-- C9: in every state of an operation reachable from initialisation through the
exposed entry points (`decide_memoization`, `enter_analysis`, `trace_local_id`), in
any build, `memo_state = MEMO_REQ` implies that the trace pointer is present; so
`execute_dependence_analysis` run from such a state stops neither at the
`OP::trace != NULL` assertion of line 55 nor on a `NULL` trace at line 58. -/
theorem memo_req_has_trace (rt : Runtime) (op : MemoizableOp)
    (h : Reachable rt (fun _ req => req.exposed) op)
    (hs : op.memo_state = MemoState.MEMO_REQ) :
    op.trace ≠ none ∧
    (run (execute_dependence_analysis rt) op).fault ≠ some (Fault.assertion_failed 55) ∧
    (run (execute_dependence_analysis rt) op).fault ≠ some (Fault.null_dereference 58) := by
  have key : op.memo_state = MemoState.MEMO_REQ → op.trace.isSome = true := by
    clear hs
    induction h with
    | init op0 => intro hinit; exact absurd hinit (by simp [run, initialize_memoizable,
        bind, Exec.bind, modifyOp])
    | call op req _ hall hf ih => exact exposed_step_keeps_trace_link rt op req ih hall hf
    | env op t _ ih =>
      intro hst
      have := ih hst
      simpa [retarget] using this
  have htr := key hs
  exact ⟨Option.isSome_iff_ne_none.mp htr, (execute_from_memo_req rt op hs).2.2.2 htr⟩

/-- The invariant at a concrete reachable state: a traced operation, initialised
and granted memoization by its mapper, is in `MEMO_REQ` and has its trace. -/
theorem memo_req_has_trace_witness :
    (run (perform debug_runtime (Request.decide_memoization 0))
      (run initialize_memoizable
        (sample_op (some fresh_trace) none MemoState.NO_MEMO)).op).op.memo_state
      = MemoState.MEMO_REQ ∧
    (run (perform debug_runtime (Request.decide_memoization 0))
      (run initialize_memoizable
        (sample_op (some fresh_trace) none MemoState.NO_MEMO)).op).op.trace ≠ none :=
  ⟨rfl, (memo_req_has_trace debug_runtime
    (run (perform debug_runtime (Request.decide_memoization 0))
      (run initialize_memoizable (sample_op (some fresh_trace) none MemoState.NO_MEMO)).op).op
    (Reachable.call _ (Request.decide_memoization 0) (Reachable.init _) rfl rfl) rfl).1⟩

/-- C10 (as amended): on an operation whose `memo_state` is `RECORD` or `REPLAY`,
`execute_dependence_analysis` is a fatal assertion failure in a build with
`DEBUG_LEGION`, where it makes no call at all (no hook, nothing on the template
store) and changes no field; in a build without `DEBUG_LEGION` the check is
compiled out and the run returns after exactly one call, the normal analysis hook,
again without touching the template store or changing any field. -/
theorem analysis_after_decision (rt : Runtime) (op : MemoizableOp)
    (hs : op.memo_state = MemoState.RECORD ∨ op.memo_state = MemoState.REPLAY) :
    (rt.DEBUG_LEGION = true →
      (run (execute_dependence_analysis rt) op).fault = some (Fault.assertion_failed 50) ∧
      (run (execute_dependence_analysis rt) op).calls = [] ∧
      (run (execute_dependence_analysis rt) op).op = op) ∧
    (rt.DEBUG_LEGION = false →
      (run (execute_dependence_analysis rt) op).fault = none ∧
      (run (execute_dependence_analysis rt) op).calls = [Call.OP_execute_dependence_analysis] ∧
      (run (execute_dependence_analysis rt) op).op = op) := by
  have hd : decided op = true := by
    rcases hs with h | h <;> simp [decided, h]
  rw [execute_when_decided rt op hd]
  cases hdb : rt.DEBUG_LEGION <;> simp [Outcome.calls]

/-- The two builds at a concrete operation in `RECORD`. -/
theorem analysis_after_decision_witness :
    (recorded_op debug_runtime).memo_state = MemoState.RECORD ∧
    (run (execute_dependence_analysis debug_runtime) (recorded_op debug_runtime)).fault
      = some (Fault.assertion_failed 50) ∧
    (run (execute_dependence_analysis debug_runtime) (recorded_op debug_runtime)).calls = [] :=
  have h := (analysis_after_decision debug_runtime (recorded_op debug_runtime) (Or.inl rfl)).1 rfl
  ⟨rfl, h.1, h.2.1⟩

/-- C10 as stated fails in a build without `DEBUG_LEGION`: a second
`execute_dependence_analysis` on the operation that is already in `RECORD` is not
fatal; it returns, having called the normal analysis hook once. -/
theorem second_analysis_runs_unchecked :
    (recorded_op release_runtime).memo_state = MemoState.RECORD ∧
    (run (execute_dependence_analysis release_runtime) (recorded_op release_runtime)).fault
      = none ∧
    (run (execute_dependence_analysis release_runtime) (recorded_op release_runtime)).times
      Call.OP_execute_dependence_analysis = 1 := by
  refine ⟨rfl, rfl, ?_⟩
  decide

/-! ## Preconditions, initialisation and the trace-local identity -/

/-- C11 (as amended): on an operation whose `memo_state` is not `NO_MEMO`, for
either flag, `set_memoize` is a fatal assertion failure in a build with
`DEBUG_LEGION`, where it changes no field; in a build without `DEBUG_LEGION` the
check is compiled out and the call returns, setting `memo_state` to `MEMO_REQ` when
the flag is true and both kill switches are off and changing nothing otherwise. -/
theorem request_outside_no_memo (rt : Runtime) (flag : Bool) (op : MemoizableOp)
    (hs : op.memo_state ≠ MemoState.NO_MEMO) :
    (rt.DEBUG_LEGION = true →
      (run (set_memoize rt flag) op).fault = some (Fault.assertion_failed 121) ∧
      (run (set_memoize rt flag) op).op = op ∧
      (run (set_memoize rt flag) op).op.memo_state = op.memo_state) ∧
    (rt.DEBUG_LEGION = false →
      (run (set_memoize rt flag) op).fault = none ∧
      ((flag = true ∧ rt.no_tracing = false ∧ rt.no_physical_tracing = false) →
        (run (set_memoize rt flag) op).op = { op with memo_state := MemoState.MEMO_REQ }) ∧
      (¬ (flag = true ∧ rt.no_tracing = false ∧ rt.no_physical_tracing = false) →
        (run (set_memoize rt flag) op).op = op)) := by
  have h := set_memoize_apply rt flag { op := op, log := [] }
  constructor
  · intro hdb
    rw [if_pos ⟨hdb, hs⟩] at h
    simp [run, h]
  · intro hdb
    rw [if_neg (by simp [hdb])] at h
    by_cases h2 : flag = true ∧ rt.no_tracing = false ∧ rt.no_physical_tracing = false
    · rw [if_pos h2] at h
      simp only [run, h]
      simp [h2]
    · rw [if_neg h2] at h
      simp only [run, h]
      simp [h2]

/-- The two builds at a concrete operation in `REPLAY`. -/
theorem request_outside_no_memo_witness :
    (sample_op (some replaying_trace) (some { id := 3, replaying := true })
      MemoState.REPLAY).memo_state ≠ MemoState.NO_MEMO ∧
    (run (set_memoize debug_runtime true)
      (sample_op (some replaying_trace) (some { id := 3, replaying := true })
        MemoState.REPLAY)).fault = some (Fault.assertion_failed 121) ∧
    (run (set_memoize debug_runtime true)
      (sample_op (some replaying_trace) (some { id := 3, replaying := true })
        MemoState.REPLAY)).op.memo_state = MemoState.REPLAY :=
  have h := (request_outside_no_memo debug_runtime true
    (sample_op (some replaying_trace) (some { id := 3, replaying := true }) MemoState.REPLAY)
    (by decide)).1 rfl
  ⟨by decide, h.1, h.2.2⟩

/-- C11 as stated fails in a build without `DEBUG_LEGION`: on an operation in
`REPLAY`, `set_memoize(true)` is not fatal; it returns and changes `memo_state` to
`MEMO_REQ`. -/
theorem unchecked_request_on_replay :
    (sample_op (some replaying_trace) (some { id := 3, replaying := true })
      MemoState.REPLAY).memo_state = MemoState.REPLAY ∧
    (run (set_memoize release_runtime true)
      (sample_op (some replaying_trace) (some { id := 3, replaying := true })
        MemoState.REPLAY)).fault = none ∧
    (run (set_memoize release_runtime true)
      (sample_op (some replaying_trace) (some { id := 3, replaying := true })
        MemoState.REPLAY)).op.memo_state = MemoState.MEMO_REQ :=
  ⟨rfl, rfl, rfl⟩

/-- C13: `get_trace_local_id` returns, on every operation, the pair of the stored
`trace_local_id` and the default `DomainPoint`; it makes no call and changes no
field; and two consecutive calls return the same value. -/
theorem trace_local_id_is_pure (op : MemoizableOp) :
    returned get_trace_local_id op = some (op.trace_local_id, DomainPoint.default) ∧
    run get_trace_local_id op = { op := op, log := [], fault := none } ∧
    returned get_trace_local_id (run get_trace_local_id op).op
      = returned get_trace_local_id op ∧
    returned get_trace_local_id_twice op
      = some ((op.trace_local_id, DomainPoint.default),
              (op.trace_local_id, DomainPoint.default)) ∧
    run get_trace_local_id_twice op = { op := op, log := [], fault := none } :=
  ⟨rfl, rfl, rfl, rfl, rfl⟩

/-- C14: from any prior state, `initialize_memoizable` returns with
`memo_state = NO_MEMO` and `tpl` absent, having made no call and changed no other
field. -/
theorem initialize_resets (op : MemoizableOp) :
    (run initialize_memoizable op).fault = none ∧
    (run initialize_memoizable op).op.memo_state = MemoState.NO_MEMO ∧
    (run initialize_memoizable op).op.tpl = none ∧
    (run initialize_memoizable op).log = [] ∧
    (run initialize_memoizable op).op
      = { op with tpl := none, memo_state := MemoState.NO_MEMO } :=
  ⟨rfl, rfl, rfl, rfl, rfl⟩

/-! ## Scenarios and frame properties -/

/-- C12: a traced operation is initialised and then put through
`invoke_memoize_operation` with a mapper that answers `memoize = true`, both kill
switches being off: the call returns and the state is `MEMO_REQ`.  If the store of
its trace then has no current template, `execute_dependence_analysis` returns having
started a template exactly once, ends in `RECORD` with `tpl` the started template,
and calls the normal analysis hook exactly once. -/
theorem traced_memoize_then_record (rt : Runtime) (mapper_id : Nat) (op0 : MemoizableOp)
    (t0 t : LegionTrace) (pt : PhysicalTrace)
    (ht0 : op0.trace = some t0)
    (hm : (policy_response rt mapper_id (run initialize_memoizable op0).op).memoize = true)
    (hnt : rt.no_tracing = false) (hnp : rt.no_physical_tracing = false)
    (hpt : t.get_physical_trace = some pt) (hc : pt.get_current_template = none) :
    (after_decision rt mapper_id op0).fault = none ∧
    (after_decision rt mapper_id op0).op.memo_state = MemoState.MEMO_REQ ∧
    (run (execute_dependence_analysis rt)
      (retarget t (after_decision rt mapper_id op0).op)).fault = none ∧
    (run (execute_dependence_analysis rt)
      (retarget t (after_decision rt mapper_id op0).op)).times Call.start_new_template = 1 ∧
    (run (execute_dependence_analysis rt)
      (retarget t (after_decision rt mapper_id op0).op)).op.memo_state = MemoState.RECORD ∧
    (run (execute_dependence_analysis rt)
      (retarget t (after_decision rt mapper_id op0).op)).op.tpl
        = some pt.start_new_template.1 ∧
    (run (execute_dependence_analysis rt)
      (retarget t (after_decision rt mapper_id op0).op)).times
        Call.OP_execute_dependence_analysis = 1 := by
  obtain ⟨i, g, tr, l, pr, tp, st⟩ := op0
  simp only at ht0
  subst ht0
  have hinit : (run initialize_memoizable ⟨i, g, some t0, l, pr, tp, st⟩).op
      = ⟨i, g, some t0, l, pr, none, MemoState.NO_MEMO⟩ := rfl
  rw [hinit] at hm
  have hA := invoke_memoize_operation_apply rt mapper_id
    { op := ⟨i, g, some t0, l, pr, none, MemoState.NO_MEMO⟩, log := [] }
  rw [if_neg (by simp), set_memoize_apply, if_neg (by simp [Sys.logged]),
    if_pos ⟨hm, hnt, hnp⟩] at hA
  have hrun : after_decision rt mapper_id ⟨i, g, some t0, l, pr, tp, st⟩
      = { op := ⟨i, g, some t0, l, pr, none, MemoState.MEMO_REQ⟩,
          log := [{ call := Call.mapper_memoize_operation ⟨true⟩ ⟨false⟩,
                    memo_state := MemoState.NO_MEMO, tpl := none }],
          fault := none } := by
    unfold after_decision
    rw [hinit]
    simp only [run, hA]
    rfl
  rw [hrun]
  simp only [LegionTrace.get_physical_trace, PhysicalTrace.get_current_template] at hpt hc
  cases hdb : rt.DEBUG_LEGION <;>
  simp [run, retarget, execute_dependence_analysis, execute_dependence_analysis_with, bind, Exec.bind, pure, Exec.pure,
      debug_assert, debug_assert_calling, getOp, modifyOp, emit, Sys.logged, deref_trace, deref_physical_trace,
      deref_tpl, store_trace, hpt, hc, hdb,
      LegionTrace.get_physical_trace, PhysicalTrace.get_current_template,
      PhysicalTemplate.is_replaying, PhysicalTrace.start_new_template,
      LegionTrace.set_state_record, LegionTrace.is_recording, Outcome.calls, Outcome.times,
      has_trace, has_physical_trace, trace_is_recording]

/-- The scenario at a concrete traced operation of a debug build, mapper 0 asking
for memoization. -/
theorem traced_memoize_then_record_witness :
    (after_decision debug_runtime 0
      (sample_op (some fresh_trace) none MemoState.NO_MEMO)).op.memo_state
        = MemoState.MEMO_REQ ∧
    (run (execute_dependence_analysis debug_runtime)
      (retarget fresh_trace (after_decision debug_runtime 0
        (sample_op (some fresh_trace) none MemoState.NO_MEMO)).op)).op.memo_state
        = MemoState.RECORD :=
  have h := traced_memoize_then_record debug_runtime 0
    (sample_op (some fresh_trace) none MemoState.NO_MEMO) fresh_trace fresh_trace
    { current_template := none, next_template_id := 0 } rfl rfl rfl rfl rfl rfl
  ⟨h.2.1, h.2.2.2.2.1⟩

/-- C15: `tpl` is written only by the `MEMO_REQ -> {RECORD, REPLAY}` step of
`execute_dependence_analysis`.  A call of `set_memoize`, `invoke_memoize_operation`
or `get_trace_local_id`, from any state and in any build, leaves `tpl` and the trace
pointer as they were and makes no call on the trace or its template store; a call
that changes `tpl` is `execute_dependence_analysis` on an operation in `MEMO_REQ`,
and if it returns the operation is in `RECORD` or `REPLAY`; a call made on an
operation in `RECORD` or `REPLAY` leaves `tpl` as it was; and so does any sequence
of `set_memoize`, `invoke_memoize_operation` and `get_trace_local_id` calls. -/
theorem tpl_written_only_by_analysis (rt : Runtime) (op : MemoizableOp) (req : Request) :
    (req ≠ Request.enter_analysis →
      (run (perform rt req) op).op.tpl = op.tpl ∧
      (run (perform rt req) op).op.trace = op.trace ∧
      (run (perform rt req) op).calls.filter Call.on_trace_or_store = []) ∧
    ((run (perform rt req) op).op.tpl ≠ op.tpl →
      req = Request.enter_analysis ∧ op.memo_state = MemoState.MEMO_REQ ∧
      ((run (perform rt req) op).fault = none →
        decided (run (perform rt req) op).op = true)) ∧
    (decided op = true → (run (perform rt req) op).op.tpl = op.tpl) ∧
    (∀ reqs : List Request, (∀ q ∈ reqs, q ≠ Request.enter_analysis) →
      (run_all rt reqs op).tpl = op.tpl) := by
  refine ⟨fun hreq => ⟨(non_analysis_call_frame rt op req hreq).1,
    (non_analysis_call_frame rt op req hreq).2, non_analysis_call_log rt op req hreq⟩, ?_, ?_, ?_⟩
  · intro hch
    by_cases hreq : req = Request.enter_analysis
    · subst hreq
      by_cases hst : op.memo_state = MemoState.MEMO_REQ
      · exact ⟨rfl, hst, (execute_from_memo_req rt op hst).1 |> fun f hf => (f hf).1⟩
      · exact absurd (analysis_keeps_tpl_outside_memo_req rt op hst) hch
    · exact absurd (non_analysis_call_frame rt op req hreq).1 hch
  · intro hd
    by_cases hreq : req = Request.enter_analysis
    · subst hreq
      apply analysis_keeps_tpl_outside_memo_req
      intro hst
      simp [decided, hst] at hd
    · exact (non_analysis_call_frame rt op req hreq).1
  · intro reqs
    induction reqs generalizing op with
    | nil => intro _; rfl
    | cons q rest ih =>
      intro hall
      have hq : q ≠ Request.enter_analysis := hall q (List.mem_cons_self q rest)
      have hrest : ∀ x ∈ rest, x ≠ Request.enter_analysis :=
        fun x hx => hall x (List.mem_cons_of_mem q hx)
      show (run_all rt rest (run (perform rt q) op).op).tpl = op.tpl
      rw [ih (run (perform rt q) op).op hrest]
      exact (non_analysis_call_frame rt op q hq).1

/-- The frame at a concrete operation in `RECORD` of a build without
`DEBUG_LEGION`: a further `set_memoize(true)`, though it returns, leaves `tpl` the
template the analysis stored. -/
theorem tpl_written_only_by_analysis_witness :
    Request.request_memoize true ≠ Request.enter_analysis ∧
    (run (perform release_runtime (Request.request_memoize true))
      (recorded_op release_runtime)).op.tpl = (recorded_op release_runtime).tpl ∧
    (run_all release_runtime
      [Request.request_memoize true, Request.decide_memoization 0, Request.trace_local_id]
      (recorded_op release_runtime)).tpl = some { id := 0, replaying := false } :=
  have h := tpl_written_only_by_analysis release_runtime (recorded_op release_runtime)
    (Request.request_memoize true)
  ⟨by decide, (h.1 (by decide)).1, (h.2.2.2 _ (by decide)).trans rfl⟩

/-! ## The order of effects inside `execute_dependence_analysis` -/

/-- C16: on an operation in `MEMO_REQ` with a trace and a store,
`execute_dependence_analysis` calls `get_current_template` exactly once; it calls
`set_state_record` and `start_new_template` exactly once each exactly when the store
has no current template, and then in that order; when a current template exists it
calls neither, and that template is the one asked `is_replaying()` and the one
stored in `tpl`. -/
theorem template_fetch_protocol (rt : Runtime) (op : MemoizableOp) (t : LegionTrace)
    (pt : PhysicalTrace)
    (hs : op.memo_state = MemoState.MEMO_REQ) (ht : op.trace = some t)
    (hpt : t.get_physical_trace = some pt) :
    (run (execute_dependence_analysis rt) op).times Call.get_current_template = 1 ∧
    (((run (execute_dependence_analysis rt) op).times Call.set_state_record = 1 ∧
      (run (execute_dependence_analysis rt) op).times Call.start_new_template = 1) ↔
      pt.get_current_template = none) ∧
    (pt.get_current_template = none →
      (run (execute_dependence_analysis rt) op).calls.filter Call.opens_recording
        = [Call.set_state_record, Call.start_new_template]) ∧
    (∀ tpl : PhysicalTemplate, pt.get_current_template = some tpl →
      (run (execute_dependence_analysis rt) op).calls.filter Call.opens_recording = [] ∧
      (run (execute_dependence_analysis rt) op).times Call.set_state_record = 0 ∧
      (run (execute_dependence_analysis rt) op).times Call.start_new_template = 0 ∧
      (run (execute_dependence_analysis rt) op).calls.filter Call.is_template_query
        = [Call.is_replaying tpl.id] ∧
      (run (execute_dependence_analysis rt) op).op.tpl = some tpl) := by
  obtain ⟨i, g, tr, l, pr, tp, st⟩ := op
  simp only at hs ht
  subst hs ht
  obtain ⟨mode, ptr⟩ := t
  simp only [LegionTrace.get_physical_trace] at hpt
  subst hpt
  obtain ⟨dbg, nt, npt, fm⟩ := rt
  obtain ⟨cur, n⟩ := pt
  cases dbg <;> cases mode <;> rcases cur with _ | ⟨k, _ | _⟩ <;>
    simp [run, execute_dependence_analysis, execute_dependence_analysis_with, bind, Exec.bind, pure, Exec.pure, debug_assert, debug_assert_calling, getOp,
      modifyOp, emit, Sys.logged, deref_trace, deref_physical_trace, deref_tpl, store_trace,
      LegionTrace.get_physical_trace, PhysicalTrace.get_current_template,
      PhysicalTemplate.is_replaying, PhysicalTrace.start_new_template,
      LegionTrace.set_state_record, LegionTrace.is_recording, LegionTrace.is_replaying,
      has_trace, has_physical_trace, trace_is_recording, trace_is_replaying,
      Outcome.calls, Outcome.times, Call.opens_recording, Call.is_template_query]

/-- The protocol at two concrete operations of a debug build: one whose store has
no current template, one whose store holds template 5. -/
theorem template_fetch_protocol_witness :
    (run (execute_dependence_analysis debug_runtime)
      (sample_op (some fresh_trace) none MemoState.MEMO_REQ)).calls.filter Call.opens_recording
        = [Call.set_state_record, Call.start_new_template] ∧
    (run (execute_dependence_analysis debug_runtime)
      (sample_op (some recording_trace) none MemoState.MEMO_REQ)).op.tpl
        = some { id := 5, replaying := false } :=
  ⟨(template_fetch_protocol debug_runtime (sample_op (some fresh_trace) none MemoState.MEMO_REQ)
      fresh_trace { current_template := none, next_template_id := 0 } rfl rfl rfl).2.2.1 rfl,
   ((template_fetch_protocol debug_runtime
      (sample_op (some recording_trace) none MemoState.MEMO_REQ) recording_trace
      { current_template := some { id := 5, replaying := false }, next_template_id := 6 }
      rfl rfl rfl).2.2.2 { id := 5, replaying := false } rfl).2.2.2.2⟩

/-- C17 (as amended): an operation in `MEMO_REQ` whose trace's current template
exists and reports `is_replaying() = false` and, in a build with `DEBUG_LEGION`,
whose trace itself reports `is_recording()` (the assertion of line 80) leaves
`execute_dependence_analysis` in `RECORD` with `tpl` that template; the run returns; the normal analysis hook is called once, at a moment
when `memo_state` is already `RECORD` and `tpl` already that template; and
`register_physical_only`, `resolve_speculation` and the replay hook are not
called. -/
theorem recording_template_gives_record (rt : Runtime) (op : MemoizableOp) (t : LegionTrace)
    (pt : PhysicalTrace) (tpl : PhysicalTemplate)
    (hs : op.memo_state = MemoState.MEMO_REQ) (ht : op.trace = some t)
    (hpt : t.get_physical_trace = some pt) (hc : pt.get_current_template = some tpl)
    (hr : tpl.is_replaying = false)
    (hd : rt.DEBUG_LEGION = true → t.is_recording = true) :
    (run (execute_dependence_analysis rt) op).fault = none ∧
    (run (execute_dependence_analysis rt) op).op.memo_state = MemoState.RECORD ∧
    (run (execute_dependence_analysis rt) op).op.tpl = some tpl ∧
    (run (execute_dependence_analysis rt) op).log.filter Event.is_normal_analysis
      = [{ call := Call.OP_execute_dependence_analysis, memo_state := MemoState.RECORD,
           tpl := some tpl }] ∧
    (run (execute_dependence_analysis rt) op).registrations = [] ∧
    (run (execute_dependence_analysis rt) op).times Call.resolve_speculation = 0 ∧
    (run (execute_dependence_analysis rt) op).times Call.replay_analysis = 0 := by
  simp only [LegionTrace.get_physical_trace, PhysicalTrace.get_current_template,
    PhysicalTemplate.is_replaying] at hpt hc hr
  cases hdb : rt.DEBUG_LEGION
  · simp [run, execute_dependence_analysis, execute_dependence_analysis_with, bind, Exec.bind, pure, Exec.pure, debug_assert, debug_assert_calling, getOp,
      modifyOp, emit, Sys.logged, deref_trace, deref_physical_trace, deref_tpl, hs, ht, hpt, hc,
      hr, hdb, LegionTrace.get_physical_trace, PhysicalTrace.get_current_template,
      PhysicalTemplate.is_replaying, Outcome.calls, Outcome.times, Outcome.registrations,
      Call.registration, Event.is_normal_analysis]
  · have hrec := hd hdb
    simp [run, execute_dependence_analysis, execute_dependence_analysis_with, bind, Exec.bind, pure, Exec.pure, debug_assert, debug_assert_calling, getOp,
      modifyOp, emit, Sys.logged, deref_trace, deref_physical_trace, deref_tpl, hs, ht, hpt, hc,
      hr, hdb, LegionTrace.get_physical_trace, PhysicalTrace.get_current_template,
      PhysicalTemplate.is_replaying, Outcome.calls, Outcome.times, Outcome.registrations,
      Call.registration, Event.is_normal_analysis, has_trace, has_physical_trace,
      trace_is_recording, hrec]

/-- The record path through an existing template, at a concrete operation of a debug
build. -/
theorem recording_template_gives_record_witness :
    (sample_op (some recording_trace) none MemoState.MEMO_REQ).memo_state
      = MemoState.MEMO_REQ ∧
    (run (execute_dependence_analysis debug_runtime)
      (sample_op (some recording_trace) none MemoState.MEMO_REQ)).op.memo_state
      = MemoState.RECORD ∧
    (run (execute_dependence_analysis debug_runtime)
      (sample_op (some recording_trace) none MemoState.MEMO_REQ)).log.filter
        Event.is_normal_analysis
      = [{ call := Call.OP_execute_dependence_analysis, memo_state := MemoState.RECORD,
           tpl := some { id := 5, replaying := false } }] :=
  have h := recording_template_gives_record debug_runtime
    (sample_op (some recording_trace) none MemoState.MEMO_REQ) recording_trace
    { current_template := some { id := 5, replaying := false }, next_template_id := 6 }
    { id := 5, replaying := false } rfl rfl rfl rfl rfl (fun _ => rfl)
  ⟨rfl, h.2.1, h.2.2.2.1⟩

/-- C17 as stated fails in a build with `DEBUG_LEGION`: on an operation in
`MEMO_REQ` whose trace's current template is being recorded while the trace itself
is not in record mode, the run stops at the assertion of line 80: `memo_state` is
still `MEMO_REQ` and the normal analysis hook was not called. -/
theorem record_aborts_when_trace_not_recording :
    (sample_op (some unmarked_recording_trace) none MemoState.MEMO_REQ).memo_state
      = MemoState.MEMO_REQ ∧
    unmarked_recording_trace.get_physical_trace
      = some { current_template := some { id := 5, replaying := false },
               next_template_id := 6 } ∧
    (run (execute_dependence_analysis debug_runtime)
      (sample_op (some unmarked_recording_trace) none MemoState.MEMO_REQ)).fault
      = some (Fault.assertion_failed 80) ∧
    (run (execute_dependence_analysis debug_runtime)
      (sample_op (some unmarked_recording_trace) none MemoState.MEMO_REQ)).op.memo_state
      = MemoState.MEMO_REQ ∧
    (run (execute_dependence_analysis debug_runtime)
      (sample_op (some unmarked_recording_trace) none MemoState.MEMO_REQ)).times
        Call.OP_execute_dependence_analysis = 0 := by
  refine ⟨rfl, rfl, rfl, rfl, ?_⟩
  decide

/-- C18 (as amended): on the replay path (an operation in `MEMO_REQ` whose trace's
current template is replaying and, in a build with `DEBUG_LEGION`, whose trace
itself reports `is_replaying()`, the assertion of line 69) the whole log of
`execute_dependence_analysis` is, in this order: the fetches, the template's
`is_replaying()` query and, in a build with `DEBUG_LEGION`, the two calls the
assertions of lines 56 and 69 make, all made while `memo_state` is still
`MEMO_REQ`; then `register_physical_only`, `resolve_speculation` and the replay
hook, each made with `memo_state` already `REPLAY` and `tpl` already the template,
and these three are the only calls made in that state.  Nothing follows the replay
hook: the run returns with the fields as they were at that call. -/
theorem replay_path_order (rt : Runtime) (op : MemoizableOp) (t : LegionTrace)
    (pt : PhysicalTrace) (tpl : PhysicalTemplate)
    (hs : op.memo_state = MemoState.MEMO_REQ) (ht : op.trace = some t)
    (hpt : t.get_physical_trace = some pt) (hc : pt.get_current_template = some tpl)
    (hr : tpl.is_replaying = true)
    (hd : rt.DEBUG_LEGION = true → t.is_replaying = true) :
    (run (execute_dependence_analysis rt) op).log =
      (if rt.DEBUG_LEGION = true then
        [ { call := Call.get_physical_trace, memo_state := MemoState.MEMO_REQ, tpl := op.tpl } ]
       else []) ++
      [ { call := Call.get_physical_trace, memo_state := MemoState.MEMO_REQ, tpl := op.tpl },
        { call := Call.get_current_template, memo_state := MemoState.MEMO_REQ, tpl := op.tpl },
        { call := Call.is_replaying tpl.id, memo_state := MemoState.MEMO_REQ,
          tpl := some tpl } ] ++
      (if rt.DEBUG_LEGION = true then
        [ { call := Call.trace_is_replaying, memo_state := MemoState.MEMO_REQ,
            tpl := some tpl } ]
       else []) ++
      [ { call := Call.register_physical_only op.unique_op_id op.gen,
          memo_state := MemoState.REPLAY, tpl := some tpl },
        { call := Call.resolve_speculation, memo_state := MemoState.REPLAY, tpl := some tpl },
        { call := Call.replay_analysis, memo_state := MemoState.REPLAY, tpl := some tpl } ] ∧
    (run (execute_dependence_analysis rt) op).log.filter Event.after_replay_set =
      [ { call := Call.register_physical_only op.unique_op_id op.gen,
          memo_state := MemoState.REPLAY, tpl := some tpl },
        { call := Call.resolve_speculation, memo_state := MemoState.REPLAY, tpl := some tpl },
        { call := Call.replay_analysis, memo_state := MemoState.REPLAY, tpl := some tpl } ] ∧
    (run (execute_dependence_analysis rt) op).fault = none ∧
    (run (execute_dependence_analysis rt) op).op
      = { op with tpl := some tpl, memo_state := MemoState.REPLAY } := by
  simp only [LegionTrace.get_physical_trace, PhysicalTrace.get_current_template,
    PhysicalTemplate.is_replaying] at hpt hc hr
  cases hdb : rt.DEBUG_LEGION
  · simp [run, execute_dependence_analysis, execute_dependence_analysis_with, bind, Exec.bind, pure, Exec.pure, debug_assert,
      debug_assert_calling, getOp,
      modifyOp, emit, Sys.logged, deref_trace, deref_physical_trace, deref_tpl, hs, ht, hpt, hc,
      hr, hdb, LegionTrace.get_physical_trace, PhysicalTrace.get_current_template,
      PhysicalTemplate.is_replaying, Event.after_replay_set]
  · have hrep := hd hdb
    simp [run, execute_dependence_analysis, execute_dependence_analysis_with, bind, Exec.bind, pure, Exec.pure, debug_assert,
      debug_assert_calling, getOp,
      modifyOp, emit, Sys.logged, deref_trace, deref_physical_trace, deref_tpl, hs, ht, hpt, hc,
      hr, hdb, LegionTrace.get_physical_trace, PhysicalTrace.get_current_template,
      PhysicalTemplate.is_replaying, has_trace, has_physical_trace, trace_is_replaying, hrep,
      Event.after_replay_set]

/-- The order at a concrete operation of a debug build: the calls made with
`memo_state` already `REPLAY`, in order, and the eight calls of the whole log. -/
theorem replay_path_order_witness :
    (sample_op (some replaying_trace) none MemoState.MEMO_REQ).memo_state
      = MemoState.MEMO_REQ ∧
    (run (execute_dependence_analysis debug_runtime)
      (sample_op (some replaying_trace) none MemoState.MEMO_REQ)).log.filter
        Event.after_replay_set =
      [ { call := Call.register_physical_only 7 2, memo_state := MemoState.REPLAY,
          tpl := some { id := 3, replaying := true } },
        { call := Call.resolve_speculation, memo_state := MemoState.REPLAY,
          tpl := some { id := 3, replaying := true } },
        { call := Call.replay_analysis, memo_state := MemoState.REPLAY,
          tpl := some { id := 3, replaying := true } } ] ∧
    (run (execute_dependence_analysis debug_runtime)
      (sample_op (some replaying_trace) none MemoState.MEMO_REQ)).calls =
      [ Call.get_physical_trace, Call.get_physical_trace, Call.get_current_template,
        Call.is_replaying 3, Call.trace_is_replaying, Call.register_physical_only 7 2,
        Call.resolve_speculation, Call.replay_analysis ] :=
  have h := replay_path_order debug_runtime
    (sample_op (some replaying_trace) none MemoState.MEMO_REQ) replaying_trace
    { current_template := some { id := 3, replaying := true }, next_template_id := 4 }
    { id := 3, replaying := true } rfl rfl rfl rfl rfl (fun _ => rfl)
  ⟨rfl, h.2.1, by unfold Outcome.calls; rw [h.1]; rfl⟩

/-- C18 as stated fails in a build with `DEBUG_LEGION`: on an operation in `MEMO_REQ`
whose trace's current template is replaying while the trace itself is in record
mode, the run takes the branch of line 66 and stops at the assertion of line 69:
`memo_state` is never set to `REPLAY`, none of the three effects occurs and the
method does not return. -/
theorem replay_order_broken_by_assertion :
    (sample_op (some stale_record_trace) none MemoState.MEMO_REQ).memo_state
      = MemoState.MEMO_REQ ∧
    (run (execute_dependence_analysis debug_runtime)
      (sample_op (some stale_record_trace) none MemoState.MEMO_REQ)).calls =
      [ Call.get_physical_trace, Call.get_physical_trace, Call.get_current_template,
        Call.is_replaying 3, Call.trace_is_replaying ] ∧
    (run (execute_dependence_analysis debug_runtime)
      (sample_op (some stale_record_trace) none MemoState.MEMO_REQ)).log.filter
        Event.after_replay_set = [] ∧
    (run (execute_dependence_analysis debug_runtime)
      (sample_op (some stale_record_trace) none MemoState.MEMO_REQ)).fault
      = some (Fault.assertion_failed 69) ∧
    (run (execute_dependence_analysis debug_runtime)
      (sample_op (some stale_record_trace) none MemoState.MEMO_REQ)).op.memo_state
      = MemoState.MEMO_REQ :=
  ⟨rfl, rfl, rfl, rfl, rfl⟩

/-! ## The mapper consultation, and the choice between the two hooks -/

/-- C19: `invoke_memoize_operation` calls the mapper exactly once, and makes no
other call, on every path (also the ones that stop); the input it hands over has
`traced` true exactly when the trace pointer is present, and the output it hands
over has `memoize` preset to false.  Hence, with a mapper that leaves the output
untouched, an operation in `NO_MEMO` stays in `NO_MEMO`, unchanged, and the call
returns without a fault, whether the operation is traced or not. -/
theorem mapper_consulted_once (rt : Runtime) (mapper_id : Nat) (op : MemoizableOp) :
    (run (invoke_memoize_operation rt mapper_id) op).calls
      = [Call.mapper_memoize_operation { traced := has_trace op } { memoize := false }] ∧
    (has_trace op = true ↔ op.trace ≠ none) ∧
    (op.memo_state = MemoState.NO_MEMO →
      (∀ (input : MemoizeInput) (output : MemoizeOutput),
        (rt.find_mapper op.executing_processor mapper_id).memoize_operation input output
          = output) →
      (run (invoke_memoize_operation rt mapper_id) op).fault = none ∧
      (run (invoke_memoize_operation rt mapper_id) op).op = op ∧
      (run (invoke_memoize_operation rt mapper_id) op).op.memo_state = MemoState.NO_MEMO) := by
  have h := invoke_memoize_operation_apply rt mapper_id { op := op, log := [] }
  refine ⟨?_, ?_, ?_⟩
  · by_cases h0 : op.trace = none ∧ (policy_response rt mapper_id op).memoize = true
    · rw [if_pos h0] at h
      simp [run, h, Sys.logged, Outcome.calls]
    · rw [if_neg h0, set_memoize_apply] at h
      simp only [Sys.logged] at h
      by_cases h1 : rt.DEBUG_LEGION = true ∧ op.memo_state ≠ MemoState.NO_MEMO
      · rw [if_pos h1] at h
        simp [run, h, Outcome.calls]
      · rw [if_neg h1] at h
        by_cases h2 : (policy_response rt mapper_id op).memoize = true ∧
            rt.no_tracing = false ∧ rt.no_physical_tracing = false
        · rw [if_pos h2] at h
          simp [run, h, Outcome.calls]
        · rw [if_neg h2] at h
          simp [run, h, Outcome.calls]
  · simp [has_trace, Option.isSome_iff_ne_none]
  · intro hs hid
    have hresp : (policy_response rt mapper_id op).memoize = false := by
      simp [policy_response, hid]
    rw [if_neg (by simp [hresp]), set_memoize_apply] at h
    simp only [Sys.logged] at h
    rw [if_neg (by simp [hs]), if_neg (by simp [hresp])] at h
    simp [run, h, hs]

/-- The consultation at a concrete untraced operation whose mapper (number 1)
leaves the output untouched. -/
theorem mapper_consulted_once_witness :
    (sample_op none none MemoState.NO_MEMO).memo_state = MemoState.NO_MEMO ∧
    (run (invoke_memoize_operation debug_runtime 1) (sample_op none none MemoState.NO_MEMO)).calls
      = [Call.mapper_memoize_operation { traced := false } { memoize := false }] ∧
    (run (invoke_memoize_operation debug_runtime 1) (sample_op none none MemoState.NO_MEMO)).fault
      = none ∧
    (run (invoke_memoize_operation debug_runtime 1)
      (sample_op none none MemoState.NO_MEMO)).op.memo_state = MemoState.NO_MEMO :=
  have h := mapper_consulted_once debug_runtime 1 (sample_op none none MemoState.NO_MEMO)
  ⟨rfl, h.1, (h.2.2 rfl (fun _ _ => rfl)).1, (h.2.2 rfl (fun _ _ => rfl)).2.2⟩

/-- C20 (as amended): on an operation in `NO_MEMO` or `MEMO_REQ`, with a trace and
a store (and, in a build with `DEBUG_LEGION` when the state is `MEMO_REQ`, a trace
whose mode agrees with the template consulted, as the assertions of lines 69 and 80
require), whatever template
the store's `start_new_template` returns, `execute_dependence_analysis` returns
having called exactly one of the two analysis hooks, exactly once: the replay hook
exactly when the state was `MEMO_REQ` and the consulted template (the current one,
or the one just started) reports `is_replaying()`, the normal hook otherwise.  From
`MEMO_REQ` the final state is never `MEMO_REQ`: it is `REPLAY` exactly when the
consulted template reports `is_replaying()`, and `RECORD` otherwise. -/
theorem exactly_one_hook
    (start : PhysicalTrace → PhysicalTemplate × PhysicalTrace)
    (rt : Runtime) (op : MemoizableOp) (t : LegionTrace) (pt : PhysicalTrace)
    (hs : op.memo_state = MemoState.NO_MEMO ∨ op.memo_state = MemoState.MEMO_REQ)
    (ht : op.trace = some t) (hpt : t.get_physical_trace = some pt)
    (hd : rt.DEBUG_LEGION = true → op.memo_state = MemoState.MEMO_REQ →
      mode_agrees_with start t pt = true) :
    (run (execute_dependence_analysis_with start rt) op).fault = none ∧
    (run (execute_dependence_analysis_with start rt) op).times Call.replay_analysis
      + (run (execute_dependence_analysis_with start rt) op).times
          Call.OP_execute_dependence_analysis = 1 ∧
    ((run (execute_dependence_analysis_with start rt) op).times Call.replay_analysis = 1 ↔
      (op.memo_state = MemoState.MEMO_REQ ∧ (pt.consulted_with start).is_replaying = true)) ∧
    ((run (execute_dependence_analysis_with start rt) op).times
        Call.OP_execute_dependence_analysis = 1 ↔
      ¬ (op.memo_state = MemoState.MEMO_REQ ∧ (pt.consulted_with start).is_replaying = true)) ∧
    (op.memo_state = MemoState.MEMO_REQ →
      (run (execute_dependence_analysis_with start rt) op).op.memo_state ≠ MemoState.MEMO_REQ ∧
      ((run (execute_dependence_analysis_with start rt) op).op.memo_state = MemoState.REPLAY ↔
        (pt.consulted_with start).is_replaying = true) ∧
      ((run (execute_dependence_analysis_with start rt) op).op.memo_state = MemoState.RECORD ↔
        (pt.consulted_with start).is_replaying = false) ∧
      (run (execute_dependence_analysis_with start rt) op).op.tpl
        = some (pt.consulted_with start)) := by
  obtain ⟨i, g, tr, l, pr, tp, st⟩ := op
  simp only at hs ht
  subst ht
  obtain ⟨mode, ptr⟩ := t
  simp only [LegionTrace.get_physical_trace] at hpt
  subst hpt
  obtain ⟨dbg, nt, npt, fm⟩ := rt
  obtain ⟨cur, n⟩ := pt
  rcases cur with _ | ⟨k, rp⟩
  · rcases hst : start { current_template := none, next_template_id := n } with ⟨⟨k, rp⟩, pt2⟩
    rcases hs with hs | hs <;> subst hs <;> cases dbg <;> cases mode <;> cases rp <;>
      simp [mode_agrees_with, hst, PhysicalTrace.get_current_template,
        PhysicalTemplate.is_replaying] at hd <;>
      simp [run, execute_dependence_analysis_with, hst, bind, Exec.bind, pure, Exec.pure,
        debug_assert, debug_assert_calling, getOp,
        modifyOp, emit, Sys.logged, deref_trace, deref_physical_trace, deref_tpl, store_trace,
        LegionTrace.get_physical_trace, PhysicalTrace.get_current_template,
        PhysicalTemplate.is_replaying,
        LegionTrace.set_state_record, LegionTrace.is_recording, LegionTrace.is_replaying,
        has_trace, has_physical_trace, trace_is_recording, trace_is_replaying,
        Outcome.calls, Outcome.times, PhysicalTrace.consulted_with]
  · rcases hs with hs | hs <;> subst hs <;> cases dbg <;> cases mode <;> cases rp <;>
      simp [mode_agrees_with, LegionTrace.is_recording, LegionTrace.is_replaying,
        PhysicalTrace.get_current_template, PhysicalTemplate.is_replaying] at hd <;>
      simp [run, execute_dependence_analysis_with, bind, Exec.bind, pure, Exec.pure,
        debug_assert, debug_assert_calling, getOp,
        modifyOp, emit, Sys.logged, deref_trace, deref_physical_trace, deref_tpl, store_trace,
        LegionTrace.get_physical_trace, PhysicalTrace.get_current_template,
        PhysicalTemplate.is_replaying,
        LegionTrace.set_state_record, LegionTrace.is_recording, LegionTrace.is_replaying,
        has_trace, has_physical_trace, trace_is_recording, trace_is_replaying,
        Outcome.calls, Outcome.times, PhysicalTrace.consulted_with]

/-- The choice at three concrete operations: in a debug build a replaying current
template gives the replay hook and `REPLAY`, and a store without a template whose
started template is being recorded gives the normal hook and `RECORD`; in a build
without `DEBUG_LEGION`, a store without a template whose started template reports
`is_replaying()` gives the replay hook and `REPLAY`. -/
theorem exactly_one_hook_witness :
    (run (execute_dependence_analysis debug_runtime)
      (sample_op (some replaying_trace) none MemoState.MEMO_REQ)).times Call.replay_analysis = 1 ∧
    (run (execute_dependence_analysis debug_runtime)
      (sample_op (some fresh_trace) none MemoState.MEMO_REQ)).op.memo_state = MemoState.RECORD ∧
    (run (execute_dependence_analysis_with start_replaying_template release_runtime)
      (sample_op (some fresh_trace) none MemoState.MEMO_REQ)).times Call.replay_analysis = 1 ∧
    (run (execute_dependence_analysis_with start_replaying_template release_runtime)
      (sample_op (some fresh_trace) none MemoState.MEMO_REQ)).op.memo_state = MemoState.REPLAY :=
  ⟨(exactly_one_hook PhysicalTrace.start_new_template debug_runtime
      (sample_op (some replaying_trace) none MemoState.MEMO_REQ) replaying_trace
      { current_template := some { id := 3, replaying := true }, next_template_id := 4 }
      (Or.inr rfl) rfl rfl (fun _ _ => rfl)).2.2.1.mpr ⟨rfl, rfl⟩,
   ((exactly_one_hook PhysicalTrace.start_new_template debug_runtime
      (sample_op (some fresh_trace) none MemoState.MEMO_REQ)
      fresh_trace { current_template := none, next_template_id := 0 }
      (Or.inr rfl) rfl rfl (fun _ _ => rfl)).2.2.2.2 rfl).2.2.1.mpr rfl,
   (exactly_one_hook start_replaying_template release_runtime
      (sample_op (some fresh_trace) none MemoState.MEMO_REQ)
      fresh_trace { current_template := none, next_template_id := 0 }
      (Or.inr rfl) rfl rfl (fun h _ => nomatch h)).2.2.1.mpr ⟨rfl, rfl⟩,
   ((exactly_one_hook start_replaying_template release_runtime
      (sample_op (some fresh_trace) none MemoState.MEMO_REQ)
      fresh_trace { current_template := none, next_template_id := 0 }
      (Or.inr rfl) rfl rfl (fun h _ => nomatch h)).2.2.2.2 rfl).2.1.mpr rfl⟩

/-- C20 as stated fails in a build with `DEBUG_LEGION`: on an operation in `MEMO_REQ`
with a trace and a store whose current template is being recorded, while the trace
itself is in replay mode, the run stops at the assertion of line 80 having called
neither analysis hook, and the state is still `MEMO_REQ`. -/
theorem no_hook_when_modes_disagree :
    (sample_op (some stale_replay_trace) none MemoState.MEMO_REQ).memo_state
      = MemoState.MEMO_REQ ∧
    stale_replay_trace.get_physical_trace
      = some { current_template := some { id := 5, replaying := false },
               next_template_id := 6 } ∧
    (run (execute_dependence_analysis debug_runtime)
      (sample_op (some stale_replay_trace) none MemoState.MEMO_REQ)).times Call.replay_analysis
      + (run (execute_dependence_analysis debug_runtime)
          (sample_op (some stale_replay_trace) none MemoState.MEMO_REQ)).times
            Call.OP_execute_dependence_analysis = 0 ∧
    (run (execute_dependence_analysis debug_runtime)
      (sample_op (some stale_replay_trace) none MemoState.MEMO_REQ)).op.memo_state
      = MemoState.MEMO_REQ ∧
    (run (execute_dependence_analysis debug_runtime)
      (sample_op (some stale_replay_trace) none MemoState.MEMO_REQ)).fault
      = some (Fault.assertion_failed 80) := by
  refine ⟨rfl, rfl, ?_, rfl, rfl⟩
  decide

end Internal
end Legion

namespace CurrentOptimumAngle

/-! ## Integers of type `int`, loops and rectangles -/

theorem int32_of_range (z : Int) (h1 : -2147483648 ≤ z) (h2 : z < 2147483648) : int32 z = z := by
  unfold int32
  omega

theorem int32_int32_add (a b : Int) : int32 (int32 a + b) = int32 (a + b) := by
  unfold int32
  omega

theorem int32_sub_int32 (a b : Int) : int32 (a - int32 b) = int32 (a - b) := by
  unfold int32
  omega

theorem mem_ascending (lo hi k : Int) : k ∈ ascending lo hi ↔ lo ≤ k ∧ k ≤ hi := by
  unfold ascending
  constructor
  · intro h
    obtain ⟨a, ha, rfl⟩ := List.mem_map.mp h
    have := List.mem_range.mp ha
    omega
  · intro h
    exact List.mem_map.mpr ⟨(k - lo).toNat, List.mem_range.mpr (by omega), by omega⟩

theorem mem_points (r : Rect2) (p : Point2) : p ∈ r.points ↔ r.contains p := by
  obtain ⟨x, y⟩ := p
  unfold Rect2.points Rect2.contains
  simp only [List.mem_flatMap, List.mem_map, mem_ascending, Prod.mk.injEq]
  constructor
  · rintro ⟨b, hb, a, ha, rfl, rfl⟩
    exact ⟨ha.1, ha.2, hb.1, hb.2⟩
  · intro h
    exact ⟨y, ⟨h.2.2.1, h.2.2.2⟩, x, ⟨h.1, h.2.1⟩, rfl, rfl⟩

theorem write_same (field : Point2 → Int) (p : Point2) (v : Int) : write field p v p = v := by
  simp [write]

theorem write_other (field : Point2 → Int) (p q : Point2) (v : Int) (h : q ≠ p) :
    write field p v q = field q := by
  simp [write, h]

/-! ## The two loops of `compute_task` -/

/-- The inner loop of `compute_task` on the column `hi.x - n`, after its first `m`
rounds: the columns to the right keep the values they had, and the `m` topmost
points of the column hold their final value. -/
theorem inner_loop_invariant (x_diff y_diff : ReadRegion) (rect : Rect2)
    (hvx : x_diff.volume = 0) (hvy : y_diff.volume = 0)
    (hsx : rect.hi.1 - rect.lo.1 < 2147483648) (hsy : rect.hi.2 - rect.lo.2 < 2147483648)
    (n : Nat) (hn : (n : Int) ≤ rect.hi.1 - rect.lo.1)
    (c : Point2 → Int)
    (hc : ∀ p : Point2, rect.hi.1 - n < p.1 → p.1 ≤ rect.hi.1 → rect.lo.2 ≤ p.2 →
      p.2 ≤ rect.hi.2 → c p = int32 ((rect.hi.1 - p.1) + (rect.hi.2 - p.2) + 1))
    (m : Nat) (hm : (m : Int) ≤ rect.hi.2 - rect.lo.2 + 1) :
    (∀ p : Point2, rect.hi.1 - n < p.1 → p.1 ≤ rect.hi.1 → rect.lo.2 ≤ p.2 →
      p.2 ≤ rect.hi.2 →
      (List.range m).foldl (fun c1 (k : Nat) =>
        compute_point x_diff y_diff rect c1 (rect.hi.1 - (n : Int)) (rect.hi.2 - (k : Int))) c p
        = int32 ((rect.hi.1 - p.1) + (rect.hi.2 - p.2) + 1)) ∧
    (∀ p : Point2, p.1 = rect.hi.1 - n → rect.hi.2 - m < p.2 → p.2 ≤ rect.hi.2 →
      (List.range m).foldl (fun c1 (k : Nat) =>
        compute_point x_diff y_diff rect c1 (rect.hi.1 - (n : Int)) (rect.hi.2 - (k : Int))) c p
        = int32 ((rect.hi.1 - p.1) + (rect.hi.2 - p.2) + 1)) := by
  induction m with
  | zero =>
    refine ⟨fun p h1 h2 h3 h4 => hc p h1 h2 h3 h4, fun p _ h2 h3 => ?_⟩
    simp only [Nat.cast_zero, sub_zero] at h2
    omega
  | succ m ih =>
    have ihm := ih (by push_cast at hm; omega)
    rw [List.range_succ, List.foldl_append]
    simp only [List.foldl_cons, List.foldl_nil]
    generalize (List.range m).foldl (fun c1 (k : Nat) =>
        compute_point x_diff y_diff rect c1 (rect.hi.1 - (n : Int)) (rect.hi.2 - (k : Int))) c
      = c1 at ihm
    obtain ⟨ih1, ih2⟩ := ihm
    have hval : compute_point x_diff y_diff rect c1 (rect.hi.1 - (n : Int)) (rect.hi.2 - (m : Int))
        (rect.hi.1 - (n : Int), rect.hi.2 - (m : Int))
        = int32 ((n : Int) + (m : Int) + 1) := by
      unfold compute_point
      simp only [write_same, hvx, hvy, lt_self_iff_false, if_false, gt_iff_lt]
      push_cast at hm
      by_cases hn0 : n = 0 <;> by_cases hm0 : m = 0
      · subst hn0 hm0
        simp
      · subst hn0
        have hy : ¬ (rect.hi.2 - (m : Int) = rect.hi.2) := by omega
        have h := ih2 (rect.hi.1 - ((0 : Nat) : Int), rect.hi.2 - (m : Int) + 1) rfl
          (by simp only; omega) (by simp only; omega)
        simp only at h
        simp only [Nat.cast_zero, sub_zero, if_true, hy, if_false] at h ⊢
        rw [h]
        have e : rect.hi.1 - rect.hi.1 + (rect.hi.2 - (rect.hi.2 - (m : Int) + 1)) + 1 = (m : Int) := by
          omega
        rw [e, int32_of_range (m : Int) (by omega) (by omega)]
        have : ¬ ((m : Int) < 0) := by omega
        simp only [this, if_false]
        congr 1
        omega
      · subst hm0
        have hx : ¬ (rect.hi.1 - (n : Int) = rect.hi.1) := by omega
        have h := ih1 (rect.hi.1 - (n : Int) + 1, rect.hi.2 - ((0 : Nat) : Int))
          (by simp only; omega) (by simp only; omega) (by simp only; push_cast; omega)
          (by simp only; push_cast; omega)
        simp only at h
        simp only [Nat.cast_zero, sub_zero, if_true, hx, if_false] at h ⊢
        rw [h]
        have e : rect.hi.1 - (rect.hi.1 - (n : Int) + 1) + (rect.hi.2 - rect.hi.2) + 1 = (n : Int) := by
          omega
        rw [e, int32_of_range (n : Int) (by omega) (by omega)]
        have : (0 : Int) < (n : Int) := by omega
        simp only [this, if_true]
        congr 1
      · have hx : ¬ (rect.hi.1 - (n : Int) = rect.hi.1) := by omega
        have hy : ¬ (rect.hi.2 - (m : Int) = rect.hi.2) := by omega
        have h1 := ih1 (rect.hi.1 - (n : Int) + 1, rect.hi.2 - (m : Int))
          (by simp only; omega) (by simp only; omega) (by simp only; omega)
          (by simp only; omega)
        have h2 := ih2 (rect.hi.1 - (n : Int), rect.hi.2 - (m : Int) + 1) rfl
          (by simp only; omega) (by simp only; omega)
        simp only at h1 h2
        simp only [hx, hy, if_false]
        rw [h1, h2]
        have e1 : rect.hi.1 - (rect.hi.1 - (n : Int) + 1) + (rect.hi.2 - (rect.hi.2 - (m : Int))) + 1
            = (n : Int) + (m : Int) := by omega
        have e2 : rect.hi.1 - (rect.hi.1 - (n : Int)) + (rect.hi.2 - (rect.hi.2 - (m : Int) + 1)) + 1
            = (n : Int) + (m : Int) := by omega
        rw [e1, e2]
        simp only [lt_self_iff_false, if_false]
        rw [int32_int32_add]
    have hother : ∀ q : Point2, q ≠ (rect.hi.1 - (n : Int), rect.hi.2 - (m : Int)) →
        compute_point x_diff y_diff rect c1 (rect.hi.1 - (n : Int)) (rect.hi.2 - (m : Int)) q
        = c1 q := by
      intro q hq
      unfold compute_point
      exact write_other _ _ _ _ hq
    constructor
    · intro p h1 h2 h3 h4
      rw [hother p (by intro hp; rw [hp] at h1; simp only at h1; omega)]
      exact ih1 p h1 h2 h3 h4
    · intro p h1 h2 h3
      by_cases hp : p = (rect.hi.1 - (n : Int), rect.hi.2 - (m : Int))
      · rw [hp, hval]
        congr 1
        simp only
        omega
      · rw [hother p hp]
        apply ih2 p h1 _ h3
        have : p.2 ≠ rect.hi.2 - (m : Int) := by
          intro h
          apply hp
          exact Prod.ext h1 h
        push_cast at h2
        omega

/-- The outer loop of `compute_task` after its first `n` rounds: the `n` rightmost
columns of the rectangle hold their final values. -/
theorem outer_loop_invariant (x_diff y_diff : ReadRegion) (rect : Rect2)
    (hvx : x_diff.volume = 0) (hvy : y_diff.volume = 0)
    (hsx : rect.hi.1 - rect.lo.1 < 2147483648) (hsy : rect.hi.2 - rect.lo.2 < 2147483648)
    (hy : rect.lo.2 ≤ rect.hi.2) (c0 : Point2 → Int)
    (n : Nat) (hn : (n : Int) ≤ rect.hi.1 - rect.lo.1 + 1) :
    ∀ p : Point2, rect.hi.1 - n < p.1 → p.1 ≤ rect.hi.1 → rect.lo.2 ≤ p.2 → p.2 ≤ rect.hi.2 →
      (List.range n).foldl (fun c (k : Nat) =>
        (descending rect.lo.2 rect.hi.2).foldl
          (fun c1 y => compute_point x_diff y_diff rect c1 (rect.hi.1 - (k : Int)) y) c) c0 p
        = int32 ((rect.hi.1 - p.1) + (rect.hi.2 - p.2) + 1) := by
  induction n with
  | zero =>
    intro p h1 h2
    simp only [Nat.cast_zero, sub_zero] at h1
    omega
  | succ n ih =>
    have ihn := ih (by push_cast at hn; omega)
    rw [List.range_succ, List.foldl_append]
    simp only [List.foldl_cons, List.foldl_nil]
    generalize (List.range n).foldl (fun c (k : Nat) =>
        (descending rect.lo.2 rect.hi.2).foldl
          (fun c1 y => compute_point x_diff y_diff rect c1 (rect.hi.1 - (k : Int)) y) c) c0
      = c1 at ihn
    unfold descending
    rw [List.foldl_map]
    have hinner := inner_loop_invariant x_diff y_diff rect hvx hvy hsx hsy n
      (by push_cast at hn; omega) c1 ihn (rect.hi.2 - rect.lo.2 + 1).toNat (by omega)
    intro p h1 h2 h3 h4
    by_cases hp : rect.hi.1 - (n : Int) < p.1
    · exact hinner.1 p hp h2 h3 h4
    · exact hinner.2 p (by push_cast at h1; omega) (by omega) h4

/-- With both neighbour regions empty and both sides of the rectangle
shorter than `2^31`, `compute_task` leaves at every point of the rectangle the `int`
value of its distance to the far corner plus one. -/
theorem compute_task_value (x_diff y_diff : ReadRegion) (rect : Rect2)
    (hvx : x_diff.volume = 0) (hvy : y_diff.volume = 0)
    (hsx : rect.hi.1 - rect.lo.1 < 2147483648) (hsy : rect.hi.2 - rect.lo.2 < 2147483648)
    (hx : rect.lo.1 ≤ rect.hi.1) (hy : rect.lo.2 ≤ rect.hi.2) (curr : Point2 → Int)
    (p : Point2) (hp : rect.contains p) :
    compute_task x_diff y_diff rect curr p
      = int32 ((rect.hi.1 - p.1) + (rect.hi.2 - p.2) + 1) := by
  unfold compute_task
  unfold Rect2.contains at hp
  have h := outer_loop_invariant x_diff y_diff rect hvx hvy hsx hsy hy curr
    (rect.hi.1 - rect.lo.1 + 1).toNat (by omega) p (by omega) hp.2.1 hp.2.2.1 hp.2.2.2
  rw [← h]
  conv_lhs => unfold descending
  rw [List.foldl_map]
  rfl

/-! ## `init_field_task` and `check_task` -/

/-- What the loop of `init_field_task` leaves: at the points it visited, the
coordinates and 1; elsewhere, what was there. -/
theorem init_loop (l : List Point2) (fields : Fields) :
    (∀ p ∈ l,
      (l.foldl (fun f p => ({ x := write f.x p (int32 p.1), y := write f.y p (int32 p.2),
                              val := write f.val p 1 } : Fields)) fields).x p = int32 p.1 ∧
      (l.foldl (fun f p => ({ x := write f.x p (int32 p.1), y := write f.y p (int32 p.2),
                              val := write f.val p 1 } : Fields)) fields).y p = int32 p.2 ∧
      (l.foldl (fun f p => ({ x := write f.x p (int32 p.1), y := write f.y p (int32 p.2),
                              val := write f.val p 1 } : Fields)) fields).val p = 1) ∧
    (∀ p, p ∉ l →
      (l.foldl (fun f p => ({ x := write f.x p (int32 p.1), y := write f.y p (int32 p.2),
                              val := write f.val p 1 } : Fields)) fields).x p = fields.x p ∧
      (l.foldl (fun f p => ({ x := write f.x p (int32 p.1), y := write f.y p (int32 p.2),
                              val := write f.val p 1 } : Fields)) fields).y p = fields.y p ∧
      (l.foldl (fun f p => ({ x := write f.x p (int32 p.1), y := write f.y p (int32 p.2),
                              val := write f.val p 1 } : Fields)) fields).val p = fields.val p) := by
  induction l generalizing fields with
  | nil =>
    exact ⟨fun p hp => absurd hp (List.not_mem_nil p), fun p _ => ⟨rfl, rfl, rfl⟩⟩
  | cons q rest ih =>
    simp only [List.foldl_cons]
    have ih' := ih { x := write fields.x q (int32 q.1), y := write fields.y q (int32 q.2),
                     val := write fields.val q 1 }
    constructor
    · intro p hp
      by_cases hr : p ∈ rest
      · exact ih'.1 p hr
      · have hpq : p = q := by
          rcases List.mem_cons.mp hp with h | h
          · exact h
          · exact absurd h hr
        have h := ih'.2 p hr
        rw [h.1, h.2.1, h.2.2, hpq]
        exact ⟨write_same _ _ _, write_same _ _ _, write_same _ _ _⟩
    · intro p hp
      have hr : p ∉ rest := fun h => hp (List.mem_cons_of_mem q h)
      have hpq : p ≠ q := fun h => hp (h ▸ List.mem_cons_self q rest)
      have h := ih'.2 p hr
      rw [h.1, h.2.1, h.2.2]
      exact ⟨write_other _ _ _ _ hpq, write_other _ _ _ _ hpq, write_other _ _ _ _ hpq⟩

/-- The loop of `check_task` ends with `all_passed` true exactly when the stored
value equals `expected` at every point it was given. -/
theorem all_passed_iff (dims : RectDims) (fields : Fields) (l : List Point2) :
    all_passed dims fields l = true ↔ ∀ p ∈ l, expected dims fields p = fields.val p := by
  induction l with
  | nil => simp [all_passed]
  | cons q rest ih =>
    unfold all_passed
    by_cases h : expected dims fields q = fields.val q
    · simp [h, ih]
    · simp [h]

/-- What `check_task` prints is `SUCCESS` exactly when the stored value equals
`expected` at every point of the rectangle. -/
theorem check_task_iff (dims : RectDims) (rect : Rect2) (fields : Fields) :
    check_task dims rect fields = Printed.SUCCESS ↔
      ∀ p : Point2, rect.contains p → expected dims fields p = fields.val p := by
  unfold check_task
  have h := all_passed_iff dims fields rect.points
  by_cases hall : all_passed dims fields rect.points = true
  · simp only [hall, if_true, true_iff]
    intro p hp
    exact h.mp hall p ((mem_points rect p).mpr hp)
  · simp only [hall, if_false]
    constructor
    · intro hc
      cases hc
    · intro hc
      exact absurd (h.mpr (fun p hp => hc p ((mem_points rect p).mp hp))) hall

/-! ## The claims on `compute_task`, `init_field_task` and `check_task` -/

/-- C21: for every rectangle with `lo <= hi` componentwise whose largest value
`(hi.x - lo.x) + (hi.y - lo.y) + 1` is an `int` (so that the arithmetic is exact),
and every initial contents of the value field, when both neighbour regions have
volume 0, `compute_task` leaves at every point `(x, y)` of the rectangle the value
`(hi.x - x) + (hi.y - y) + 1`; in particular the values it leaves on the rectangle
depend neither on what the rectangle held before the call nor on the contents of
the two empty neighbour regions. -/
theorem compute_task_fills_corner_distance (x_diff y_diff : ReadRegion) (rect : Rect2)
    (curr : Point2 → Int)
    (hvx : x_diff.volume = 0) (hvy : y_diff.volume = 0)
    (hx : rect.lo.1 ≤ rect.hi.1) (hy : rect.lo.2 ≤ rect.hi.2)
    (hfit : (rect.hi.1 - rect.lo.1) + (rect.hi.2 - rect.lo.2) + 1 < 2147483648) :
    (∀ p : Point2, rect.contains p →
      compute_task x_diff y_diff rect curr p = (rect.hi.1 - p.1) + (rect.hi.2 - p.2) + 1) ∧
    (∀ (x_diff1 y_diff1 : ReadRegion) (curr1 : Point2 → Int),
      x_diff1.volume = 0 → y_diff1.volume = 0 →
      ∀ p : Point2, rect.contains p →
        compute_task x_diff1 y_diff1 rect curr1 p = compute_task x_diff y_diff rect curr p) := by
  have key : ∀ (xd yd : ReadRegion) (c : Point2 → Int), xd.volume = 0 → yd.volume = 0 →
      ∀ p : Point2, rect.contains p →
        compute_task xd yd rect c p = (rect.hi.1 - p.1) + (rect.hi.2 - p.2) + 1 := by
    intro xd yd c h1 h2 p hp
    rw [compute_task_value xd yd rect h1 h2 (by omega) (by omega) hx hy c p hp]
    unfold Rect2.contains at hp
    exact int32_of_range _ (by omega) (by omega)
  exact ⟨key x_diff y_diff curr hvx hvy, fun xd yd c h1 h2 p hp => by
    rw [key xd yd c h1 h2 p hp, key x_diff y_diff curr hvx hvy p hp]⟩

/-- The values on the rectangle from (2, 3) to (4, 5), started from a field that
held 99 everywhere: the near corner gets 5 and the far corner 1. -/
theorem compute_task_fills_corner_distance_witness :
    compute_task empty_region empty_region { lo := (2, 3), hi := (4, 5) } (fun _ => 99) (2, 3) = 5 ∧
    compute_task empty_region empty_region { lo := (2, 3), hi := (4, 5) } (fun _ => 99) (4, 5) = 1 :=
  have h := (compute_task_fills_corner_distance empty_region empty_region
    { lo := (2, 3), hi := (4, 5) } (fun _ => 99) rfl rfl (by decide) (by decide) (by decide)).1
  ⟨h (2, 3) (by decide), h (4, 5) (by decide)⟩

/-- C22: for all side lengths `sx, sy >= 1` (of type `int`), after `init_field_task`
and then `compute_task` with empty neighbour regions have run over the whole grid
from (0, 0) to (sx - 1, sy - 1), the value stored at every point of the grid equals
the value `expected` that `check_task` computes there from `X`, `Y` and the two side
lengths, and `check_task` prints `SUCCESS`; `X` and `Y` hold the coordinates, and
when `sx + sy - 1` is an `int` the stored value is `(sx - 1 - X) + (sy - 1 - Y) + 1`
as an exact integer.  In general, on any rectangle and any field contents,
`check_task` prints `SUCCESS` if and only if the stored value equals `expected` at
every point of the rectangle. -/
theorem init_compute_check_succeeds (sx sy : Int) (fields : Fields)
    (h1x : 1 ≤ sx) (h1y : 1 ≤ sy) (hix : sx < 2147483648) (hiy : sy < 2147483648) :
    (∀ p : Point2, (elem_rect sx sy).contains p →
      (init_then_compute (elem_rect sx sy) fields).val p
        = expected { side_length_x := sx, side_length_y := sy }
            (init_then_compute (elem_rect sx sy) fields) p) ∧
    check_task { side_length_x := sx, side_length_y := sy } (elem_rect sx sy)
      (init_then_compute (elem_rect sx sy) fields) = Printed.SUCCESS ∧
    (∀ p : Point2, (elem_rect sx sy).contains p →
      (init_then_compute (elem_rect sx sy) fields).x p = p.1 ∧
      (init_then_compute (elem_rect sx sy) fields).y p = p.2) ∧
    (sx + sy - 1 < 2147483648 →
      ∀ p : Point2, (elem_rect sx sy).contains p →
        (init_then_compute (elem_rect sx sy) fields).val p
          = (sx - 1 - (init_then_compute (elem_rect sx sy) fields).x p)
            + (sy - 1 - (init_then_compute (elem_rect sx sy) fields).y p) + 1) ∧
    (∀ (dims : RectDims) (rect : Rect2) (f : Fields),
      check_task dims rect f = Printed.SUCCESS ↔
        ∀ p : Point2, rect.contains p →
          f.val p = int32 (int32 (int32 (int32 (dims.side_length_x - 1) - f.x p)
            + int32 (int32 (dims.side_length_y - 1) - f.y p)) + 1)) := by
  have hcoord : ∀ p : Point2, (elem_rect sx sy).contains p →
      (init_then_compute (elem_rect sx sy) fields).x p = p.1 ∧
      (init_then_compute (elem_rect sx sy) fields).y p = p.2 := by
    intro p hp
    have h := (init_loop (elem_rect sx sy).points fields).1 p ((mem_points _ p).mpr hp)
    unfold Rect2.contains elem_rect at hp
    simp only at hp
    constructor
    · show (init_field_task (elem_rect sx sy) fields).x p = p.1
      unfold init_field_task
      rw [h.1]
      exact int32_of_range _ (by omega) (by omega)
    · show (init_field_task (elem_rect sx sy) fields).y p = p.2
      unfold init_field_task
      rw [h.2.1]
      exact int32_of_range _ (by omega) (by omega)
  have hval : ∀ p : Point2, (elem_rect sx sy).contains p →
      (init_then_compute (elem_rect sx sy) fields).val p
        = int32 ((sx - 1 - p.1) + (sy - 1 - p.2) + 1) := by
    intro p hp
    show compute_task empty_region empty_region (elem_rect sx sy)
      (init_field_task (elem_rect sx sy) fields).val p = _
    rw [compute_task_value empty_region empty_region (elem_rect sx sy) rfl rfl
      (by simp only [elem_rect]; omega) (by simp only [elem_rect]; omega)
      (by simp only [elem_rect]; omega) (by simp only [elem_rect]; omega) _ p hp]
    rfl
  have hexp : ∀ p : Point2, (elem_rect sx sy).contains p →
      (init_then_compute (elem_rect sx sy) fields).val p
        = expected { side_length_x := sx, side_length_y := sy }
            (init_then_compute (elem_rect sx sy) fields) p := by
    intro p hp
    rw [hval p hp]
    unfold expected
    simp only [(hcoord p hp).1, (hcoord p hp).2]
    unfold int32
    omega
  refine ⟨hexp, ?_, hcoord, ?_, ?_⟩
  · exact (check_task_iff _ _ _).mpr (fun p hp => (hexp p hp).symm)
  · intro hfit p hp
    rw [hval p hp, (hcoord p hp).1, (hcoord p hp).2]
    unfold Rect2.contains elem_rect at hp
    simp only at hp
    exact int32_of_range _ (by omega) (by omega)
  · intro dims rect f
    rw [check_task_iff]
    constructor
    · intro h p hp
      exact (h p hp).symm
    · intro h p hp
      exact (h p hp).symm

/-- The run on the grid of side lengths 4 and 3, started from arbitrary field
contents: the check prints `SUCCESS`, and the point (1, 1) holds 2 + 1 + 1 = 4. -/
theorem init_compute_check_succeeds_witness :
    check_task { side_length_x := 4, side_length_y := 3 } (elem_rect 4 3)
      (init_then_compute (elem_rect 4 3)
        { x := fun _ => 7, y := fun _ => 8, val := fun _ => 9 }) = Printed.SUCCESS ∧
    (init_then_compute (elem_rect 4 3)
        { x := fun _ => 7, y := fun _ => 8, val := fun _ => 9 }).val (1, 1)
      = (4 - 1 - (init_then_compute (elem_rect 4 3)
            { x := fun _ => 7, y := fun _ => 8, val := fun _ => 9 }).x (1, 1))
        + (3 - 1 - (init_then_compute (elem_rect 4 3)
            { x := fun _ => 7, y := fun _ => 8, val := fun _ => 9 }).y (1, 1)) + 1 :=
  have h := init_compute_check_succeeds 4 3
    { x := fun _ => 7, y := fun _ => 8, val := fun _ => 9 }
    (by decide) (by decide) (by decide) (by decide)
  ⟨h.2.1, h.2.2.2.1 (by decide) (1, 1) (by decide)⟩

/-! ## The two colourings of `top_level_task` -/

/-- The arithmetic of lines 328-353: for a diagonal colour `d` of a grid of `nx` by
`ny` blocks, `bound` is at least 1, the two offsets are not negative, the blocks
`(k + x_offset, bound - k - 1 + y_offset)` for `k` from 0 to `bound - 1` stay inside
the grid and on the diagonal `d`, and they reach both ends of that diagonal. -/
theorem diag_slice_facts (nx ny d : Int) (hnx : 1 ≤ nx) (hny : 1 ≤ ny) (hd0 : 0 ≤ d)
    (hd : d ≤ nx + ny - 2) :
    1 ≤ (diag_slice nx ny d).bound ∧
    0 ≤ x_offset nx ny (diag_slice nx ny d) ∧
    0 ≤ y_offset nx ny (diag_slice nx ny d) ∧
    x_offset nx ny (diag_slice nx ny d) + (diag_slice nx ny d).bound ≤ nx ∧
    y_offset nx ny (diag_slice nx ny d) + (diag_slice nx ny d).bound ≤ ny ∧
    x_offset nx ny (diag_slice nx ny d) + y_offset nx ny (diag_slice nx ny d)
      + (diag_slice nx ny d).bound - 1 = d ∧
    (x_offset nx ny (diag_slice nx ny d) = 0 ∨
      y_offset nx ny (diag_slice nx ny d) + (diag_slice nx ny d).bound = ny) ∧
    (y_offset nx ny (diag_slice nx ny d) = 0 ∨
      x_offset nx ny (diag_slice nx ny d) + (diag_slice nx ny d).bound = nx) := by
  unfold x_offset y_offset diag_slice
  simp only [gt_iff_lt]
  split_ifs <;> refine ⟨?_, ?_, ?_, ?_, ?_, ?_, ?_, ?_⟩ <;> simp only [] <;>
    first | omega | (left; trivial)

/-- The rectangle of a sub-colour between 0 and `bound - 1` is the rectangle of its
block, built as the first-level loop builds it. -/
theorem sub_color_rect_inner (nx ny ppx ppy d k : Int) (hk0 : 0 ≤ k)
    (hk : k < (diag_slice nx ny d).bound) :
    sub_color_rect nx ny ppx ppy d k
      = subrect ppx ppy (sub_color_block nx ny d k).1 (sub_color_block nx ny d k).2 := by
  unfold sub_color_rect
  simp only
  rw [if_neg (by omega)]
  rfl

/-- Membership in the first-level colouring: the insertions are the blocks of the
grid, each under the sum of its two indices. -/
theorem mem_d_coloring (nx ny ppx ppy c : Int) (r : Rect2) :
    (c, r) ∈ d_coloring nx ny ppx ppy ↔
      ∃ x y : Int, 0 ≤ x ∧ x < nx ∧ 0 ≤ y ∧ y < ny ∧ x + y = c ∧ r = subrect ppx ppy x y := by
  unfold d_coloring
  constructor
  · intro h
    obtain ⟨x, hx, hxy⟩ := List.mem_flatMap.mp h
    obtain ⟨y, hy, he⟩ := List.mem_map.mp hxy
    rw [mem_ascending] at hx hy
    simp only [Prod.mk.injEq] at he
    exact ⟨x, y, hx.1, by omega, hy.1, by omega, he.1, he.2.symm⟩
  · rintro ⟨x, y, hx0, hx, hy0, hy, hc, hr⟩
    apply List.mem_flatMap.mpr
    refine ⟨x, (mem_ascending _ _ _).mpr ⟨hx0, by omega⟩, ?_⟩
    apply List.mem_map.mpr
    exact ⟨y, (mem_ascending _ _ _).mpr ⟨hy0, by omega⟩, by rw [hc, hr]⟩

/-- Membership in the second-level colouring of the diagonal colour `d`: the
assignments are the sub-colours from -1 to `bound`, each with its rectangle. -/
theorem mem_sub_d_coloring (nx ny ppx ppy d k : Int) (r : Rect2) :
    (k, r) ∈ sub_d_coloring nx ny ppx ppy d ↔
      (-1 ≤ k ∧ k ≤ (diag_slice nx ny d).bound ∧ r = sub_color_rect nx ny ppx ppy d k) := by
  unfold sub_d_coloring
  constructor
  · intro h
    obtain ⟨j, hj, he⟩ := List.mem_map.mp h
    rw [mem_ascending] at hj
    simp only [Prod.mk.injEq] at he
    obtain ⟨rfl, rfl⟩ := he
    exact ⟨hj.1, hj.2, rfl⟩
  · rintro ⟨h1, h2, rfl⟩
    exact List.mem_map.mpr ⟨k, (mem_ascending _ _ _).mpr ⟨h1, h2⟩, rfl⟩

/-- C23: for all block counts `nx, ny >= 1` and every diagonal colour `d` with
`0 <= d <= nx + ny - 2`, in the second-level colouring `top_level_task` builds for
`d`: `bound` is at least 1 and the sub-colours assigned are exactly -1, 0, ...,
`bound`, each once; every sub-colour from 0 to `bound - 1` gets the rectangle of a
block `(bx, by)` with `bx + by = d`, `0 <= bx < nx` and `0 <= by < ny`; every such
block is the block of exactly one sub-colour from 0 to `bound - 1`; the rectangles
these sub-colours get are exactly the rectangles the first-level colouring put
under colour `d`; and the two sub-colours -1 and `bound` get the empty rectangle.
When a block has at least one point in each direction, different sub-colours from
0 to `bound - 1` get different rectangles. -/
theorem second_level_colouring (nx ny ppx ppy d : Int)
    (hnx : 1 ≤ nx) (hny : 1 ≤ ny) (hd0 : 0 ≤ d) (hd : d ≤ nx + ny - 2) :
    1 ≤ (diag_slice nx ny d).bound ∧
    (sub_d_coloring nx ny ppx ppy d).map Prod.fst = ascending (-1) (diag_slice nx ny d).bound ∧
    (∀ k : Int, 0 ≤ k → k < (diag_slice nx ny d).bound →
      (k, subrect ppx ppy (sub_color_block nx ny d k).1 (sub_color_block nx ny d k).2)
        ∈ sub_d_coloring nx ny ppx ppy d ∧
      (sub_color_block nx ny d k).1 + (sub_color_block nx ny d k).2 = d ∧
      0 ≤ (sub_color_block nx ny d k).1 ∧ (sub_color_block nx ny d k).1 < nx ∧
      0 ≤ (sub_color_block nx ny d k).2 ∧ (sub_color_block nx ny d k).2 < ny) ∧
    (∀ block_x block_y : Int, 0 ≤ block_x → block_x < nx → 0 ≤ block_y → block_y < ny →
      block_x + block_y = d →
      ∃! k : Int, 0 ≤ k ∧ k < (diag_slice nx ny d).bound ∧
        sub_color_block nx ny d k = (block_x, block_y)) ∧
    (∀ r : Rect2, (d, r) ∈ d_coloring nx ny ppx ppy ↔
      ∃ k : Int, 0 ≤ k ∧ k < (diag_slice nx ny d).bound ∧
        (k, r) ∈ sub_d_coloring nx ny ppx ppy d) ∧
    (-1, empty_rect) ∈ sub_d_coloring nx ny ppx ppy d ∧
    ((diag_slice nx ny d).bound, empty_rect) ∈ sub_d_coloring nx ny ppx ppy d ∧
    (1 ≤ ppx → 1 ≤ ppy → ∀ k1 k2 : Int, 0 ≤ k1 → k1 < (diag_slice nx ny d).bound →
      0 ≤ k2 → k2 < (diag_slice nx ny d).bound →
      sub_color_rect nx ny ppx ppy d k1 = sub_color_rect nx ny ppx ppy d k2 → k1 = k2) := by
  obtain ⟨f1, f2, f3, f4, f5, f6, f7, f8⟩ := diag_slice_facts nx ny d hnx hny hd0 hd
  have hblock : ∀ k : Int, sub_color_block nx ny d k
      = (k + x_offset nx ny (diag_slice nx ny d),
         (diag_slice nx ny d).bound - k - 1 + y_offset nx ny (diag_slice nx ny d)) :=
    fun _ => rfl
  refine ⟨f1, ?_, ?_, ?_, ?_, ?_, ?_, ?_⟩
  · unfold sub_d_coloring
    rw [List.map_map]
    exact List.map_id _
  · intro k hk0 hk
    refine ⟨(mem_sub_d_coloring _ _ _ _ _ _ _).mpr
      ⟨by omega, by omega, (sub_color_rect_inner nx ny ppx ppy d k hk0 hk).symm⟩, ?_⟩
    rw [hblock]
    simp only
    omega
  · intro bx by_ hx0 hx hy0 hy hsum
    refine ⟨bx - x_offset nx ny (diag_slice nx ny d), ⟨by omega, by omega, ?_⟩, ?_⟩
    · rw [hblock]
      simp only [Prod.mk.injEq]
      omega
    · rintro k ⟨_, _, hk⟩
      rw [hblock] at hk
      simp only [Prod.mk.injEq] at hk
      omega
  · intro r
    rw [mem_d_coloring]
    constructor
    · rintro ⟨x, y, hx0, hx, hy0, hy, hsum, hr⟩
      refine ⟨x - x_offset nx ny (diag_slice nx ny d), by omega, by omega, ?_⟩
      rw [mem_sub_d_coloring]
      refine ⟨by omega, by omega, ?_⟩
      rw [sub_color_rect_inner nx ny ppx ppy d _ (by omega) (by omega), hr, hblock]
      simp only
      congr 1 <;> omega
    · rintro ⟨k, hk0, hk, hmem⟩
      rw [mem_sub_d_coloring] at hmem
      rw [sub_color_rect_inner nx ny ppx ppy d k hk0 hk, hblock] at hmem
      simp only at hmem
      exact ⟨_, _, by omega, by omega, by omega, by omega, by omega, hmem.2.2⟩
  · rw [mem_sub_d_coloring]
    refine ⟨le_refl _, by omega, ?_⟩
    unfold sub_color_rect
    simp
  · rw [mem_sub_d_coloring]
    refine ⟨by omega, le_refl _, ?_⟩
    unfold sub_color_rect
    simp
  · intro hpx _ k1 k2 h10 h1 h20 h2 he
    rw [sub_color_rect_inner nx ny ppx ppy d k1 h10 h1,
      sub_color_rect_inner nx ny ppx ppy d k2 h20 h2, hblock, hblock] at he
    simp only [subrect, Rect2.mk.injEq, Prod.mk.injEq] at he
    have hne : ppx ≠ 0 := by omega
    have := mul_right_cancel₀ hne he.1.1
    omega

/-- The colouring of a grid of 2 by 4 blocks of 3 by 5 points, on the diagonal 2:
`bound` is 2, sub-colour 0 gets the block (0, 2) and sub-colour 1 the block (1, 1). -/
theorem second_level_colouring_witness :
    (diag_slice 2 4 2).bound = 2 ∧
    (0, subrect 3 5 0 2) ∈ sub_d_coloring 2 4 3 5 2 ∧
    (1, subrect 3 5 1 1) ∈ sub_d_coloring 2 4 3 5 2 ∧
    (-1, empty_rect) ∈ sub_d_coloring 2 4 3 5 2 :=
  have h := second_level_colouring 2 4 3 5 2 (by decide) (by decide) (by decide) (by decide)
  ⟨rfl, (h.2.2.1 0 (by decide) (by decide)).1, (h.2.2.1 1 (by decide) (by decide)).1,
    h.2.2.2.2.2.1⟩

end CurrentOptimumAngle
